import Mathlib

/-!
Verification of `pyspatialopt/models/covering.py` (facility-location covering
models).  The Python coverage dictionaries are shallowly embedded as records
over insertion-ordered association lists (`List (String × _)`), matching the
ordered-dict semantics of the source; numeric fields become rationals; Python
exceptions become an explicit `Err` sum carried in `Except`.
-/

set_option maxHeartbeats 1000000

namespace PySpatialOpt

/-- Python exceptions raised by `covering.py`, by class and (for `ValueError`
and `TypeError`) message. -/
inductive Err where
  | keyError (k : String)
  | valueError (msg : String)
  | typeError (msg : String)
  | zeroDivisionError
  | indexError
  deriving DecidableEq, Repr

/-- Lookup in an insertion-ordered association list: first binding of `k`
(Python `m[k]` / `k in m`, where dicts never hold duplicate keys). -/
def lookupKey {α : Type} (m : List (String × α)) (k : String) : Option α :=
  match m with
  | [] => none
  | p :: rest => if p.1 = k then some p.2 else lookupKey rest k

/-- Python `m[k] = v` on an ordered dict: replace the binding in place if the
key exists, otherwise append the new binding at the end. -/
def setKey {α : Type} (m : List (String × α)) (k : String) (v : α) :
    List (String × α) :=
  match m with
  | [] => [(k, v)]
  | p :: rest => if p.1 = k then (k, v) :: rest else p :: setKey rest k v

/-- The keys of an association list are pairwise distinct (always true of a
list that denotes a Python dict). -/
def NodupKeys {α : Type} (m : List (String × α)) : Prop :=
  (m.map Prod.fst).Nodup

instance {α : Type} (m : List (String × α)) : Decidable (NodupKeys m) := by
  unfold NodupKeys; infer_instance

/-- One demand unit of a coverage dictionary
(`coverage_dict["demand"][demand_id]`): nominal weight, serviceable weight and
the nested `coverage` map from facility-type name to facility-id to coverage
value. -/
structure DemandRecord where
  demand : ℚ
  serviceableDemand : ℚ
  coverage : List (String × List (String × ℚ))
  deriving DecidableEq, Repr

/-- A coverage dictionary: `type.type` and `type.mode` tags, the
`facilities` map (facility-type name to facility-id to opaque metadata,
metadata modelled as an opaque `String`), the `demand` map and the
`totalServiceableDemand` aggregate. -/
structure Coverage where
  ctype : String
  mode : String
  facilities : List (String × List (String × String))
  demand : List (String × DemandRecord)
  totalServiceableDemand : ℚ
  deriving DecidableEq, Repr

/-- `validate_coverage coverage_dict modes types` (the `type`/`mode` keys are
structurally present in the embedding, so only the two membership checks, in
source order, remain). -/
def validate_coverage (c : Coverage) (modes types : List String) :
    Except Err Unit :=
  if c.ctype ∈ types then
    if c.mode ∈ modes then .ok () else
      .error (.valueError ("Expected modes, got mode " ++ c.mode))
  else .error (.valueError ("Expected types, got type " ++ c.ctype))

/-- The loop of `update_serviceable_demand`: walk the store's demand records
in insertion order, overwriting each `serviceableDemand` from `sd` and
accumulating the total.  On a missing key the records already visited keep
their new values (the Python loop mutates in place before raising
`KeyError`), so the partially rewritten list travels with the error. -/
def update_sd_go (ds : List (String × DemandRecord))
    (sd : List (String × ℚ)) (acc : ℚ) :
    Except (String × List (String × DemandRecord))
      (List (String × DemandRecord) × ℚ) :=
  match ds with
  | [] => .ok ([], acc)
  | (k, r) :: rest =>
    match lookupKey sd k with
    | none => .error (k, (k, r) :: rest)
    | some v =>
      match update_sd_go rest sd (acc + v) with
      | .error (k2, rest2) =>
          .error (k2, (k, { r with serviceableDemand := v }) :: rest2)
      | .ok (rest2, total) =>
          .ok ((k, { r with serviceableDemand := v }) :: rest2, total)

/-- `update_serviceable_demand coverage sd`: rewrite every record's
`serviceableDemand` from the update map `sd` (given as demand-id to new
value) and recompute `totalServiceableDemand`.  A demand id missing from `sd`
raises `KeyError`; the store observable at that point (returned alongside the
error, since the Python function mutates its argument in place) has the
records before the missing id already overwritten while
`totalServiceableDemand` is still the old aggregate. -/
def update_serviceable_demand (c : Coverage) (sd : List (String × ℚ)) :
    Except (Err × Coverage) Coverage :=
  match update_sd_go c.demand sd 0 with
  | .error (k, part) => .error (.keyError k, { c with demand := part })
  | .ok (ds, total) => .ok { c with demand := ds, totalServiceableDemand := total }

/-- Python `==` on two dicts: same key set and equal values (order
irrelevant).  Used by `merge_coverages` through tuple equality on
`dict.items()` elements. -/
def dictEqB {α : Type} [BEq α] (m1 m2 : List (String × α)) : Bool :=
  m1.all (fun p => lookupKey m2 p.1 == some p.2) &&
    m2.all (fun p => lookupKey m1 p.1 == some p.2)

/-- Python `==` on two elements of `facilities.items()`: a
`(type-name, sub-dict)` tuple compares by name equality and dict equality. -/
def itemEqB (a b : String × List (String × String)) : Bool :=
  a.1 == b.1 && dictEqB a.2 b.2

/-- Python `set(ks1) == set(ks2)` on two key lists. -/
def keySetEqB (ks1 ks2 : List String) : Bool :=
  ks1.all (fun k => ks2.contains k) && ks2.all (fun k => ks1.contains k)

/-- The facility-type check of `merge_coverages`: walk every
`facilities.items()` element of every input store, appending each unseen
`(name, sub-dict)` item and raising `ValueError("Conflicting facility
types")` on the first item equal (as a tuple, so name AND content) to an
already-seen one. -/
def checkFacItems (acc : List (String × List (String × String))) :
    List (String × List (String × String)) →
    Except Err (List (String × List (String × String)))
  | [] => .ok acc
  | item :: rest =>
    if acc.any (fun x => itemEqB x item) then
      .error (.valueError "Conflicting facility types")
    else checkFacItems (acc ++ [item]) rest

/-- First loop of `merge_coverages`: validate every store against the first
store's coverage type, run the facility-items check across all stores, and
collect each store's demand-key list. -/
def mergePhase1 (ctype : String)
    (acc : List (String × List (String × String)))
    (dkeys : List (List String)) :
    List Coverage → Except Err (List (List String))
  | [] => .ok dkeys
  | c :: rest =>
    match validate_coverage c ["coverage"] [ctype] with
    | .error e => .error e
    | .ok _ =>
      match checkFacItems acc c.facilities with
      | .error e => .error e
      | .ok acc2 =>
        mergePhase1 ctype acc2 (dkeys ++ [c.demand.map Prod.fst]) rest

/-- Fold of Python dict assignment over a list of bindings (used for the
facility-map union and for copying one facility type's per-facility coverage
values into the master store). -/
def setKeyFold {α : Type} (master : List (String × α)) :
    List (String × α) → List (String × α)
  | [] => master
  | p :: rest => setKeyFold (setKey master p.1 p.2) rest

/-- Inner loop of the merge over one facility type `ft` of one input record:
copy each `(facility-id, value)` binding into the master record, and after a
binding with value `1` in a `"Binary"`-typed merge re-read
`crec.coverage["demand"]` to overwrite `serviceableDemand` — the lookup that
`covering.py` line 89 performs.  `"demand"` names a facility type in no
ordinary store, so the branch raises `KeyError("demand")`; were such a type
present the Python code would store that sub-dictionary object itself in the
numeric `serviceableDemand` field, which has no rational counterpart and is
modelled as a `TypeError`. -/
def mergeCovFacs (ctype : String) (crec : DemandRecord) (acc : DemandRecord)
    (ft : String) : List (String × ℚ) → Except Err DemandRecord
  | [] => .ok acc
  | (fac, v) :: rest =>
    let acc2 : DemandRecord :=
      { acc with coverage :=
          (setKey acc.coverage ft
            (setKey ((lookupKey acc.coverage ft).getD []) fac v)) }
    if ctype = "Binary" ∧ v = 1 then
      match lookupKey crec.coverage "demand" with
      | none => .error (.keyError "demand")
      | some _ => .error (.typeError "serviceableDemand assigned a dict")
    else mergeCovFacs ctype crec acc2 ft rest

/-- Outer loop of the merge over the facility types of one input record:
ensure the type exists in the master record (Python first assigns an empty
dict, appending the key), then copy the per-facility values. -/
def mergeCovTypes (ctype : String) (crec : DemandRecord) (acc : DemandRecord) :
    List (String × List (String × ℚ)) → Except Err DemandRecord
  | [] => .ok acc
  | (ft, sub) :: rest =>
    let acc1 : DemandRecord :=
      if (lookupKey acc.coverage ft).isSome then acc
      else { acc with coverage := acc.coverage ++ [(ft, [])] }
    match mergeCovFacs ctype crec acc1 ft sub with
    | .error e => .error e
    | .ok acc2 => mergeCovTypes ctype crec acc2 rest

/-- Merge one input record `crec` into the master's record for the same
demand id. -/
def mergeDemandRecord (ctype : String) (mrec crec : DemandRecord) :
    Except Err DemandRecord :=
  mergeCovTypes ctype crec mrec crec.coverage

/-- Merge every demand record of one input store into the master's demand
map (`covering.py` lines 80-90); a demand id absent from the master raises
`KeyError` as the Python subscript would. -/
def mergeDemands (ctype : String) (master : List (String × DemandRecord)) :
    List (String × DemandRecord) →
    Except Err (List (String × DemandRecord))
  | [] => .ok master
  | (d, crec) :: rest =>
    match lookupKey master d with
    | none => .error (.keyError d)
    | some mrec =>
      match mergeDemandRecord ctype mrec crec with
      | .error e => .error e
      | .ok mrec2 => mergeDemands ctype (setKey master d mrec2) rest

/-- Merge one whole input store into the master: facility-map union first,
then the per-demand coverage union. -/
def mergeStep (ctype : String) (master c : Coverage) : Except Err Coverage :=
  let facs := setKeyFold master.facilities c.facilities
  match mergeDemands ctype master.demand c.demand with
  | .error e => .error e
  | .ok dems => .ok { master with facilities := facs, demand := dems }

/-- Second loop of `merge_coverages`: fold `mergeStep` over the remaining
stores starting from (a deep copy of) the first store. -/
def mergeRest (ctype : String) (master : Coverage) :
    List Coverage → Except Err Coverage
  | [] => .ok master
  | c :: rest =>
    match mergeStep ctype master c with
    | .error e => .error e
    | .ok m2 => mergeRest ctype m2 rest

/-- `merge_coverages coverages`: validate all stores against the first
store's coverage type, reject a repeated `facilities.items()` element and
mismatched demand-key sets, then fold the remaining stores into a copy of
the first.  An empty input list raises `IndexError` at `coverages[0]`. -/
def merge_coverages (cs : List Coverage) : Except Err Coverage :=
  match cs with
  | [] => .error .indexError
  | c0 :: _ =>
    match mergePhase1 c0.ctype [] [] cs with
    | .error e => .error e
    | .ok dkeys =>
      if dkeys.all (fun a => dkeys.all (fun b => keySetEqB a b)) then
        mergeRest c0.ctype c0 cs.tail
      else .error (.valueError "Demand Keys Invalid")

/-- Domain category of a pulp decision variable. -/
inductive Cat where
  | integer
  | continuous
  deriving DecidableEq, Repr

/-- A pulp `LpVariable`: name (built by concatenating prefix, delineator and
id), optional lower and upper bounds and category. -/
structure Var where
  name : String
  low : Option ℚ
  up : Option ℚ
  cat : Cat
  deriving DecidableEq, Repr

/-- Comparison operator of a pulp constraint. -/
inductive Cmp where
  | le
  | ge
  | eqc
  deriving DecidableEq, Repr

/-- A named linear constraint: left-hand terms (coefficient, variable) in the
order pulp builds them, operator, right-hand constant. -/
structure Constr where
  cname : String
  lhs : List (ℚ × Var)
  cmp : Cmp
  rhs : ℚ
  deriving DecidableEq, Repr

/-- Optimization sense of a pulp problem. -/
inductive Sense where
  | maximize
  | minimize
  deriving DecidableEq, Repr

/-- A pulp `LpProblem`: name, sense, objective terms and the constraints in
the order they were added. -/
structure LpProblem where
  pname : String
  sense : Sense
  objective : List (ℚ × Var)
  constraints : List Constr
  deriving DecidableEq, Repr

/-- `mapM` over `Except` written as plain recursion, mirroring a Python loop
that may raise: the first raising element aborts the whole loop. -/
def mapME {α β : Type} (f : α → Except Err β) : List α → Except Err (List β)
  | [] => .ok []
  | a :: l =>
    match f a with
    | .error e => .error e
    | .ok b =>
      match mapME f l with
      | .error e => .error e
      | .ok bs => .ok (b :: bs)

/-- Concatenation of a list of lists (insertion order preserved). -/
def flat {α : Type} : List (List α) → List α
  | [] => []
  | l :: ls => l ++ flat ls

/-- The name of the facility variable for facility `fid` of type `ft` with
delineator `t` (`"{}{}{}".format(facility_type, delineator, facility_id)`). -/
def facVarName (t ft fid : String) : String := ft ++ t ++ fid

/-- The facility variable itself; each builder fixes its own bounds and
category. -/
def mkFacVar (t ft fid : String) (lo up : Option ℚ) (cat : Cat) : Var :=
  ⟨facVarName t ft fid, lo, up, cat⟩

/-- The `facility_vars[facility_type][facility_id]` subscript each builder
performs while walking a demand's coverage map: `KeyError` when the type or
the id is not in the store's `facilities`. -/
def facLookup (s : Coverage) (ft fid : String) : Except Err Unit :=
  match lookupKey s.facilities ft with
  | none => .error (.keyError ft)
  | some sub =>
    match lookupKey sub fid with
    | none => .error (.keyError fid)
    | some _ => .ok ()

/-- Coverage terms contributed by one facility type of one demand's coverage
map: one term per facility id, coefficient the coverage value when
`weighted` (partial-coverage builders) and `1` otherwise (binary
builders). -/
def covTermsOne (s : Coverage) (t : String) (lo up : Option ℚ) (cat : Cat)
    (weighted : Bool) (ft : String) (sub : List (String × ℚ)) :
    Except Err (List (ℚ × Var)) :=
  mapME (fun p =>
    match facLookup s ft p.1 with
    | .error e => .error e
    | .ok _ => .ok ((if weighted then p.2 else 1), mkFacVar t ft p.1 lo up cat))
    sub

/-- All coverage terms of one demand record, walking its coverage map in
insertion order. -/
def covTerms (s : Coverage) (t : String) (lo up : Option ℚ) (cat : Cat)
    (weighted : Bool) :
    List (String × List (String × ℚ)) → Except Err (List (ℚ × Var))
  | [] => .ok []
  | (ft, sub) :: rest =>
    match covTermsOne s t lo up cat weighted ft sub with
    | .error e => .error e
    | .ok ts =>
      match covTerms s t lo up cat weighted rest with
      | .error e => .error e
      | .ok ts2 => .ok (ts ++ ts2)

/-- The demand weight a builder reads: `serviceableDemand` when the
`use_serviceable_demand` flag is set, the nominal `demand` otherwise. -/
def demandW (u : Bool) (r : DemandRecord) : ℚ :=
  if u then r.serviceableDemand else r.demand

/-- One coefficient-1 term per facility of the store, walking `facilities`
in insertion order (used for facility-count objectives and cardinality
constraints). -/
def allFacTerms (s : Coverage) (t : String) (lo up : Option ℚ) (cat : Cat) :
    List (ℚ × Var) :=
  flat (s.facilities.map (fun p =>
    p.2.map (fun q => ((1 : ℚ), mkFacVar t p.1 q.1 lo up cat))))

/-- The `NumTotalFacilities` cardinality constraint;
`num_fac["total"]` raises `KeyError` when absent. -/
def numTotalConstr (s : Coverage) (t : String) (numFac : List (String × ℚ))
    (lo up : Option ℚ) (cat : Cat) : Except Err Constr :=
  match lookupKey numFac "total" with
  | none => .error (.keyError "total")
  | some n => .ok ⟨"NumTotalFacilities", allFacTerms s t lo up cat, .le, n⟩

/-- The per-type cardinality constraints `Num{facility_type}`, one for each
facility type that appears in `num_fac` and is not `"total"`. -/
def perTypeConstrs (s : Coverage) (t : String) (numFac : List (String × ℚ))
    (lo up : Option ℚ) (cat : Cat) : List Constr :=
  s.facilities.filterMap (fun p =>
    match lookupKey numFac p.1 with
    | some n =>
      if p.1 = "total" then none
      else some ⟨"Num" ++ p.1,
        p.2.map (fun q => ((1 : ℚ), mkFacVar t p.1 q.1 lo up cat)), .le, n⟩
    | none => none)

/-- The binary demand-covered variable `Y{delineator}{demand_id}` of the
binary builders. -/
def yVar (t d : String) : Var := ⟨"Y" ++ t ++ d, some 0, some 1, .integer⟩

/-- The backup-covered variable `U{delineator}{demand_id}` of
`create_backup_model`. -/
def uVarB (t d : String) : Var := ⟨"U" ++ t ++ d, some 0, some 1, .integer⟩

/-- The per-demand coverage constraint of `create_backup_model`: coverage
sum minus backup indicator at least 1. -/
def backupRow (s : Coverage) (t : String) (p : String × DemandRecord) :
    Except Err Constr :=
  match covTerms s t (some 0) none .integer false p.2.coverage with
  | .error e => .error e
  | .ok ts => .ok ⟨"D" ++ p.1, ts ++ [((-1 : ℚ), uVarB t p.1)], .ge, 1⟩

/-- `create_backup_model coverage_dict num_fac delineator use_serviceable`:
maximize the weighted backup-covered sum subject to, per demand, coverage
sum minus backup indicator at least 1, plus the cardinality constraints.
Facility variables are integer with no upper bound. -/
def create_backup_model (s : Coverage) (numFac : List (String × ℚ))
    (t : String) (u : Bool) : Except Err LpProblem :=
  match validate_coverage s ["coverage"] ["binary"] with
  | .error e => .error e
  | .ok _ =>
    match mapME (backupRow s t) s.demand with
    | .error e => .error e
    | .ok dCons =>
      match numTotalConstr s t numFac (some 0) none .integer with
      | .error e => .error e
      | .ok tot =>
        .ok ⟨"BCLP", .maximize,
          s.demand.map (fun p => (demandW u p.2, uVarB t p.1)),
          dCons ++ tot :: perTypeConstrs s t numFac (some 0) none .integer⟩

/-- The fixed zero dummy variable `__dummy{delineator}{demand_id}` that
`create_lscp_model` inserts when a demand has no covering facility. -/
def dummyVar (t d : String) : Var :=
  ⟨"__dummy" ++ t ++ d, some 0, some 0, .integer⟩

/-- The per-demand coverage constraint of `create_lscp_model`: coverage sum
at least 1, with the zero dummy substituted when there are no terms. -/
def lscpRow (s : Coverage) (t : String) (p : String × DemandRecord) :
    Except Err Constr :=
  match covTerms s t (some 0) (some 1) .integer false p.2.coverage with
  | .error e => .error e
  | .ok ts =>
    .ok ⟨"D" ++ p.1,
      if ts.isEmpty then [((1 : ℚ), dummyVar t p.1)] else ts, .ge, 1⟩

/-- `create_lscp_model coverage_dict delineator`: minimize the number of
sited facilities subject to every demand being covered at least once; an
empty coverage row gets the fixed zero dummy variable so the constraint is
still emitted well-formed. -/
def create_lscp_model (s : Coverage) (t : String) : Except Err LpProblem :=
  match validate_coverage s ["coverage"] ["binary"] with
  | .error e => .error e
  | .ok _ =>
    match mapME (lscpRow s t) s.demand with
    | .error e => .error e
    | .ok dCons =>
      .ok ⟨"LSCP", .minimize, allFacTerms s t (some 0) (some 1) .integer, dCons⟩

/-- The `ValueError` message of the ψ range check in the threshold
builders. -/
def psiMsg : String := "psi weight must be between 100 and 0"

/-- Sum of the selected demand weights over the whole store (the
`sum_demand` accumulation of the threshold builders). -/
def sumDemandW (u : Bool) (s : Coverage) : ℚ :=
  (s.demand.map (fun p => demandW u p.2)).sum

/-- The per-demand coverage-linking constraint of
`create_threshold_model` (same shape as MCLP's). -/
def thresholdRow (s : Coverage) (t : String) (p : String × DemandRecord) :
    Except Err Constr :=
  match covTerms s t (some 0) (some 1) .integer false p.2.coverage with
  | .error e => .error e
  | .ok ts => .ok ⟨"D" ++ p.1, ts ++ [((-1 : ℚ), yVar t p.1)], .ge, 0⟩

/-- One term of the threshold constraint of `create_threshold_model`:
`float(100 / sum_demand) * weight`, raising `ZeroDivisionError` when the
selected weights sum to zero. -/
def thresholdTerm (s : Coverage) (t : String) (u : Bool)
    (p : String × DemandRecord) : Except Err (ℚ × Var) :=
  if sumDemandW u s = 0 then .error .zeroDivisionError
  else .ok (100 / sumDemandW u s * demandW u p.2, yVar t p.1)

/-- Body of `create_threshold_model` after the validation and ψ range
checks: minimize facility count subject to the binary coverage-linking
constraints and the percentage threshold constraint, whose per-demand
coefficient `100 / sum_demand * weight` raises `ZeroDivisionError` when the
weights sum to zero (the division happens inside the per-demand loop, so an
empty demand map never divides). -/
def thresholdBody (s : Coverage) (psi : ℚ) (t : String) (u : Bool) :
    Except Err LpProblem :=
  match mapME (thresholdRow s t) s.demand with
  | .error e => .error e
  | .ok dCons =>
    match mapME (thresholdTerm s t u) s.demand with
    | .error e => .error e
    | .ok thrTerms =>
      .ok ⟨"ThresholdModel", .minimize,
        allFacTerms s t (some 0) (some 1) .integer,
        dCons ++ [⟨"", thrTerms, .ge, psi⟩]⟩

/-- `create_threshold_model coverage_dict psi delineator use_serviceable`:
validation first, then the ψ range check (`ValueError` when ψ is outside
[0,100]) before any variable or constraint is built. -/
def create_threshold_model (s : Coverage) (psi : ℚ) (t : String) (u : Bool) :
    Except Err LpProblem :=
  match validate_coverage s ["coverage"] ["binary"] with
  | .error e => .error e
  | .ok _ =>
    if psi > 100 ∨ psi < 0 then .error (.valueError psiMsg)
    else thresholdBody s psi t u

/-- The continuous demand variable `Y{delineator}{demand_id}` of the
partial-coverage threshold builder. -/
def yVarC (t d : String) : Var := ⟨"Y" ++ t ++ d, some 0, none, .continuous⟩

/-- The two per-demand constraints of `create_cc_threshold_model`:
fractional coverage linkage and the (unnamed) weight cap. -/
def ccThresholdRows (s : Coverage) (t : String) (u : Bool)
    (p : String × DemandRecord) : Except Err (List Constr) :=
  match covTerms s t (some 0) (some 1) .integer true p.2.coverage with
  | .error e => .error e
  | .ok ts =>
    .ok [⟨"D" ++ p.1, ts ++ [((-1 : ℚ), yVarC t p.1)], .ge, 0⟩,
         ⟨"", [((1 : ℚ), yVarC t p.1)], .le, demandW u p.2⟩]

/-- One term of the `Threshold` constraint of `create_cc_threshold_model`:
the uniform coefficient `float(100 / sum_demand)`, raising
`ZeroDivisionError` when the selected weights sum to zero. -/
def ccThresholdTerm (s : Coverage) (t : String) (u : Bool)
    (p : String × DemandRecord) : Except Err (ℚ × Var) :=
  if sumDemandW u s = 0 then .error .zeroDivisionError
  else .ok (100 / sumDemandW u s, yVarC t p.1)

/-- Body of `create_cc_threshold_model` after validation and the ψ range
check: fractional coverage linkage plus per-demand weight caps, and the
threshold constraint with uniform coefficient `100 / sum_demand` (again
divided inside the per-demand loop). -/
def ccThresholdBody (s : Coverage) (psi : ℚ) (t : String) (u : Bool) :
    Except Err LpProblem :=
  match mapME (ccThresholdRows s t u) s.demand with
  | .error e => .error e
  | .ok dConss =>
    match mapME (ccThresholdTerm s t u) s.demand with
    | .error e => .error e
    | .ok thrTerms =>
      .ok ⟨"ThresholdModel", .minimize,
        allFacTerms s t (some 0) (some 1) .integer,
        flat dConss ++ [⟨"Threshold", thrTerms, .ge, psi⟩]⟩

/-- `create_cc_threshold_model coverage_dict psi delineator
use_serviceable`: validation first, then the same ψ range check as the
binary threshold builder. -/
def create_cc_threshold_model (s : Coverage) (psi : ℚ) (t : String)
    (u : Bool) : Except Err LpProblem :=
  match validate_coverage s ["coverage"] ["partial"] with
  | .error e => .error e
  | .ok _ =>
    if psi > 100 ∨ psi < 0 then .error (.valueError psiMsg)
    else ccThresholdBody s psi t u

/-- The primary-coverage variable `W{delineator}{demand_id}` of
`create_bclpcc_model`. -/
def wVarP (t d : String) : Var := ⟨"W" ++ t ++ d, some 0, none, .continuous⟩

/-- The backup-coverage variable `Y{delineator}{demand_id}` of
`create_bclpcc_model` (unbounded in both directions). -/
def yVarP (t d : String) : Var := ⟨"Y" ++ t ++ d, none, none, .continuous⟩

/-- The overall-coverage variable `Z{delineator}{demand_id}` of
`create_bclpcc_model`. -/
def zVarP (t d : String) : Var := ⟨"Z" ++ t ++ d, some 0, none, .continuous⟩

/-- `create_bclpcc_model coverage_dict num_fac backup_weight delineator
use_serviceable`.  The `primaryoverall` constraint reproduces the source
exactly: `primary_vars[demand_id] - overall_vars` subtracts the whole
`overall_vars` dict, which pulp turns into one `-1` term per value of the
dict, i.e. every demand's overall variable — not just the current
demand's. -/
def create_bclpcc_model (s : Coverage) (numFac : List (String × ℚ))
    (bw : ℚ) (t : String) (u : Bool) : Except Err LpProblem :=
  match validate_coverage s ["coverage"] ["partial"] with
  | .error e => .error e
  | .ok _ =>
    if bw > 1 ∨ bw < 0 then
      .error (.valueError "Backup weight must be between 0 and 1")
    else
      match mapME (fun p =>
          match covTerms s t (some 0) none .integer true p.2.coverage with
          | .error e => .error e
          | .ok ts =>
            .ok ([⟨"D" ++ p.1, ts ++ [((-1 : ℚ), zVarP t p.1)], .ge, 0⟩,
                  ⟨"primarydemand" ++ p.1, [((1 : ℚ), wVarP t p.1)], .le,
                    demandW u p.2⟩,
                  ⟨"primaryoverall" ++ p.1,
                    ((1 : ℚ), wVarP t p.1) ::
                      s.demand.map (fun q => ((-1 : ℚ), zVarP t q.1)), .le,
                    demandW u p.2⟩,
                  ⟨"overallbackup" ++ p.1,
                    [((1 : ℚ), zVarP t p.1), ((-1 : ℚ), yVarP t p.1)], .ge,
                    demandW u p.2⟩,
                  ⟨"overalldemand" ++ p.1, [((1 : ℚ), zVarP t p.1)], .le,
                    2 * demandW u p.2⟩] : List Constr)) s.demand with
      | .error e => .error e
      | .ok dConss =>
        match numTotalConstr s t numFac (some 0) none .integer with
        | .error e => .error e
        | .ok tot =>
          .ok ⟨"BCLPCC", .maximize,
            flat (s.demand.map (fun p =>
              [(bw, yVarP t p.1), (1 - bw, wVarP t p.1)])),
            flat dConss ++ tot ::
              perTypeConstrs s t numFac (some 0) none .integer⟩

/-- Find a constraint of a problem by name. -/
def findConstr (p : LpProblem) (n : String) : Option Constr :=
  p.constraints.find? (fun c => c.cname = n)

/-- The problem of a successful builder call, or an empty placeholder
problem when the call failed. -/
def okOrP (e : Except Err LpProblem) : LpProblem :=
  match e with
  | .ok p => p
  | .error _ => ⟨"", .minimize, [], []⟩

/-- The store of a successful merge, or an empty placeholder store when the
merge failed. -/
def okOrC (e : Except Err Coverage) : Coverage :=
  match e with
  | .ok c => c
  | .error _ => ⟨"", "", [], [], 0⟩

/-- Is an `Except` a success? -/
def isOkE {ε α : Type} : Except ε α → Bool
  | .ok _ => true
  | .error _ => false

instance {ε α : Type} [DecidableEq ε] [DecidableEq α] :
    DecidableEq (Except ε α) := fun a b =>
  match a, b with
  | .ok x, .ok y =>
    if h : x = y then .isTrue (by rw [h])
    else .isFalse (by intro hc; injection hc; exact h (by assumption))
  | .error x, .error y =>
    if h : x = y then .isTrue (by rw [h])
    else .isFalse (by intro hc; injection hc; exact h (by assumption))
  | .ok _, .error _ => .isFalse (by intro hc; exact Except.noConfusion hc)
  | .error _, .ok _ => .isFalse (by intro hc; exact Except.noConfusion hc)

/-- One demand unit of a TRAUMAH coverage dictionary.  Its `coverage` value
has a different shape from the standard stores: under `"TraumaCenter"` a
list of one-field dicts giving a covering trauma center id each, and under
`"ADTCPair"` a list of two-field dicts giving an (air depot id, trauma
center id) pair each. -/
structure TraumaRecord where
  demand : ℚ
  tcCov : List String
  adtcCov : List (String × String)
  deriving DecidableEq, Repr

/-- A TRAUMAH coverage dictionary.  Facility metadata is never read by the
builder, so `facilities` keeps only the per-type id lists. -/
structure TraumaStore where
  ctype : String
  mode : String
  facilities : List (String × List String)
  demand : List (String × TraumaRecord)
  deriving DecidableEq, Repr

/-- `validate_coverage` applied to a TRAUMAH store (same two membership
checks). -/
def validateT (s : TraumaStore) (modes types : List String) :
    Except Err Unit :=
  if s.ctype ∈ types then
    if s.mode ∈ modes then .ok () else
      .error (.valueError ("Expected modes, got mode " ++ s.mode))
  else .error (.valueError ("Expected types, got type " ++ s.ctype))

/-- Subscript into an association list, raising `KeyError` when absent. -/
def getKeyE {α : Type} (m : List (String × α)) (k : String) : Except Err α :=
  match lookupKey m k with
  | some v => .ok v
  | none => .error (.keyError k)

/-- Python `s.split("$")` for the one-character separator the source
hard-codes at `covering.py` lines 596 and 598 (empty segments included). -/
def splitDollarL : List Char → List (List Char)
  | [] => [[]]
  | c :: rest =>
    let r := splitDollarL rest
    if c = '$' then [] :: r
    else
      match r with
      | h :: rt => (c :: h) :: rt
      | [] => [[c]]

/-- String version of `splitDollarL`. -/
def splitDollar (s : String) : List String :=
  (splitDollarL s.data).map (fun l => String.mk l)

/-- The demand indicator `Y{t}{d}` of `create_traumah_model`. -/
def yVarT (t d : String) : Var := ⟨"Y" ++ t ++ d, some 0, some 1, .integer⟩

/-- The ground-coverage indicator `V{t}{d}` of `create_traumah_model`. -/
def vVarT (t d : String) : Var := ⟨"V" ++ t ++ d, some 0, some 1, .integer⟩

/-- The air-coverage indicator `U{t}{d}` of `create_traumah_model`. -/
def uVarT (t d : String) : Var := ⟨"U" ++ t ++ d, some 0, some 1, .integer⟩

/-- The binary siting variable of one trauma facility (both types share
bounds 0..1). -/
def facVarT (t ft fid : String) : Var :=
  ⟨ft ++ t ++ fid, some 0, some 1, .integer⟩

/-- The dict key `"Z{t}{ad}{t}{tc}"` under which `create_traumah_model`
stores each depot-center pairing variable. -/
def zKey (t ad tc : String) : String := "Z" ++ t ++ ad ++ t ++ tc

/-- The pairing variable itself. -/
def zVarT (t ad tc : String) : Var := ⟨zKey t ad tc, some 0, some 1, .integer⟩

/-- `create_traumah_model coverage_dict num_ad num_tc delineator`: the
two-echelon trauma model.  The final pairing-variable loop re-parses each
`adtc_vars` key with `split("$")` — the literal dollar sign, not the
caller's delineator — so any delineator other than `"$"` leaves fewer than
three segments and raises `IndexError` at subscript `[2]`. -/
def create_traumah_model (s : TraumaStore) (numAd numTc : Int) (t : String) :
    Except Err LpProblem :=
  match validateT s ["coverage"] ["traumah"] with
  | .error e => .error e
  | .ok _ =>
    match getKeyE s.facilities "AirDepot" with
    | .error e => .error e
    | .ok ads =>
      match getKeyE s.facilities "TraumaCenter" with
      | .error e => .error e
      | .ok tcs =>
        let adtcVars : List (String × Var) :=
          flat (ads.map (fun ad =>
            tcs.map (fun tc => (zKey t ad tc, zVarT t ad tc))))
        let obj : List (ℚ × Var) :=
          s.demand.map (fun p => (p.2.demand, yVarT t p.1))
        let c1 : Constr :=
          ⟨"NumAirDepot", ads.map (fun a => ((1 : ℚ), facVarT t "AirDepot" a)),
            .eqc, (numAd : ℚ)⟩
        let c2 : Constr :=
          ⟨"NumTraumaCenter",
            tcs.map (fun c => ((1 : ℚ), facVarT t "TraumaCenter" c)),
            .eqc, (numTc : ℚ)⟩
        let ag : List Constr :=
          s.demand.map (fun p =>
            ⟨"AIR_GROUND_" ++ p.1,
              [((1 : ℚ), yVarT t p.1), ((-1 : ℚ), vVarT t p.1),
               ((-1 : ℚ), uVarT t p.1)], .le, 0⟩)
        match mapME (fun p =>
            match mapME (fun tc =>
                if tcs.contains tc then
                  .ok (((-1 : ℚ), facVarT t "TraumaCenter" tc) : ℚ × Var)
                else .error (.keyError tc)) p.2.tcCov with
            | .error e => .error e
            | .ok ts =>
              .ok (⟨"GND_" ++ p.1, ((1 : ℚ), vVarT t p.1) :: ts, .le, 0⟩ :
                Constr)) s.demand with
        | .error e => .error e
        | .ok gnd =>
          match mapME (fun p =>
              match mapME (fun pr =>
                  match getKeyE adtcVars (zKey t pr.1 pr.2) with
                  | .error e => .error e
                  | .ok zv => .ok (((-1 : ℚ), zv) : ℚ × Var)) p.2.adtcCov with
              | .error e => .error e
              | .ok ts =>
                .ok (⟨"AIR_" ++ p.1, ((1 : ℚ), uVarT t p.1) :: ts, .le, 0⟩ :
                  Constr)) s.demand with
          | .error e => .error e
          | .ok air =>
            match mapME (fun kv =>
                let parts := splitDollar kv.1
                match parts[2]? with
                | none => .error Err.indexError
                | some tcId =>
                  if tcs.contains tcId then
                    match parts[1]? with
                    | none => .error Err.indexError
                    | some adId =>
                      if ads.contains adId then
                        .ok ([⟨"GND_" ++ kv.1,
                               [((1 : ℚ), kv.2),
                                ((-1 : ℚ), facVarT t "TraumaCenter" tcId)],
                               .le, 0⟩,
                              ⟨"AIR_" ++ kv.1,
                               [((1 : ℚ), kv.2),
                                ((-1 : ℚ), facVarT t "AirDepot" adId)],
                               .le, 0⟩] : List Constr)
                      else .error (.keyError adId)
                  else .error (.keyError tcId)) adtcVars with
            | .error e => .error e
            | .ok pairCs =>
              .ok ⟨"TRAUMAH", .maximize, obj,
                c1 :: c2 :: ag ++ gnd ++ air ++ flat pairCs⟩

/-- Value of a linear expression under an assignment of rationals to
variable names. -/
def evalLhs (ν : String → ℚ) (l : List (ℚ × Var)) : ℚ :=
  (l.map (fun p => p.1 * ν p.2.name)).sum

/-- An assignment satisfies a constraint when the evaluated left-hand side
compares to the right-hand side as required. -/
def satC (ν : String → ℚ) (c : Constr) : Prop :=
  match c.cmp with
  | .le => evalLhs ν c.lhs ≤ c.rhs
  | .ge => c.rhs ≤ evalLhs ν c.lhs
  | .eqc => evalLhs ν c.lhs = c.rhs

/-- Whether one facility type's coverage entries of a demand record resolve
against `facilities` (a facility type with an empty per-facility dict is
never subscripted by the builders, so it needs no resolution). -/
def covTypeResolvesB (s : Coverage) (q : String × List (String × ℚ)) : Bool :=
  match lookupKey s.facilities q.1 with
  | none => q.2.isEmpty
  | some sub => q.2.all (fun r => (lookupKey sub r.1).isSome)

/-- Whether every facility reference in every demand's coverage map resolves
against `facilities`. -/
def covResolvesB (s : Coverage) : Bool :=
  s.demand.all (fun p => p.2.coverage.all (covTypeResolvesB s))

/-- Well-formedness a Python-dict-backed store always has: no duplicate keys
at any level, and every coverage facility type present in `facilities`. -/
def WFStore (c : Coverage) : Prop :=
  NodupKeys c.facilities ∧ NodupKeys c.demand ∧
    ∀ p ∈ c.demand, NodupKeys p.2.coverage ∧
      (∀ q ∈ p.2.coverage, NodupKeys q.2) ∧
      (∀ q ∈ p.2.coverage, (lookupKey c.facilities q.1).isSome)

instance (c : Coverage) : Decidable (WFStore c) := by
  unfold WFStore; infer_instance

/-! Concrete input stores used by the per-claim evidence below. -/

/-- Partial store with two demand units, each half-covered by facility
`f1`. -/
def s1c : Coverage := ⟨"partial", "coverage", [("T", [("f1", "m")])],
  [("d1", ⟨1, 1, [("T", [("f1", 1/2)])]⟩),
   ("d2", ⟨1, 1, [("T", [("f1", 1/2)])]⟩)], 2⟩

/-- Facility-count map siting at most two facilities. -/
def nf1 : List (String × ℚ) := [("total", 2)]

/-- Partial store defining facility type `T` with facility `f1` and metadata
`m1`. -/
def pA2 : Coverage := ⟨"partial", "coverage", [("T", [("f1", "m1")])],
  [("d1", ⟨1, 1, [("T", [("f1", 1/2)])]⟩)], 1⟩

/-- Partial store redefining the same type name `T` with different content
(facility `f2`, metadata `m2`). -/
def pB2 : Coverage := ⟨"partial", "coverage", [("T", [("f2", "m2")])],
  [("d1", ⟨1, 1, [("T", [("f2", 1/2)])]⟩)], 1⟩

/-- Binary store whose facility `f1` covers demand `d1`. -/
def bA3 : Coverage := ⟨"Binary", "coverage", [("T1", [("f1", "m")])],
  [("d1", ⟨10, 10, [("T1", [("f1", 1)])]⟩)], 10⟩

/-- Second binary store, disjoint facility type, also covering `d1` with
value 1. -/
def bB3 : Coverage := ⟨"Binary", "coverage", [("T2", [("f2", "m")])],
  [("d1", ⟨10, 4, [("T2", [("f2", 1)])]⟩)], 4⟩

/-- Partial store with serviceable demand 1 for `d1`. -/
def cA4 : Coverage := ⟨"partial", "coverage", [("T1", [("f1", "m")])],
  [("d1", ⟨10, 1, [("T1", [("f1", 1)])]⟩)], 1⟩

/-- Partial store with serviceable demand 2 for `d1` and a disjoint facility
type. -/
def cB4 : Coverage := ⟨"partial", "coverage", [("T2", [("f2", "m")])],
  [("d1", ⟨10, 2, [("T2", [("f2", 1)])]⟩)], 2⟩

/-- TRAUMAH store with one air depot, one trauma center and one demand unit
reachable both by ground and through the single depot-center pair. -/
def t5 : TraumaStore := ⟨"traumah", "coverage",
  [("AirDepot", ["a1"]), ("TraumaCenter", ["t1"])],
  [("d1", ⟨10, ["t1"], [("a1", "t1")]⟩)]⟩

/-- Store with two demand units whose serviceable demands are 3 and 4. -/
def c6 : Coverage := ⟨"binary", "coverage", [],
  [("d1", ⟨10, 3, []⟩), ("d2", ⟨20, 4, []⟩)], 7⟩

/-- Update map that covers `d1` but is missing `d2`. -/
def sd6 : List (String × ℚ) := [("d1", 5)]

/-- The store observable after the failed update: `d1` already overwritten
to 5, `d2` and the aggregate untouched. -/
def c6bad : Coverage := ⟨"binary", "coverage", [],
  [("d1", ⟨10, 5, []⟩), ("d2", ⟨20, 4, []⟩)], 7⟩

/-- Valid binary store with no demand units at all (demand weights sum to
zero over the empty collection). -/
def e10b : Coverage := ⟨"binary", "coverage", [("T", [("f1", "m")])], [], 0⟩

/-- Valid partial store with no demand units at all. -/
def e10p : Coverage := ⟨"partial", "coverage", [("T", [("f1", "m")])], [], 0⟩

/-- Valid binary store with one demand unit of weight zero covered by
facility `f1` (weights sum to zero while the demand map is nonempty). -/
def z10b : Coverage := ⟨"binary", "coverage", [("T", [("f1", "m")])],
  [("d1", ⟨0, 0, [("T", [("f1", 1)])]⟩)], 0⟩

/-- Valid partial store with one demand unit of weight zero. -/
def z10p : Coverage := ⟨"partial", "coverage", [("T", [("f1", "m")])],
  [("d1", ⟨0, 0, [("T", [("f1", 1/2)])]⟩)], 0⟩

/-- Binary store for the backup-model witness: demand `d1` covered by `f1`
and `f2`. -/
def s7 : Coverage := ⟨"binary", "coverage",
  [("T", [("f1", "m"), ("f2", "m")])],
  [("d1", ⟨10, 10, [("T", [("f1", 1), ("f2", 1)])]⟩)], 10⟩

/-- Facility-count map for the backup-model witness. -/
def nf7 : List (String × ℚ) := [("total", 2)]

/-- The demand record of `s7`'s demand unit `d1`. -/
def r7 : DemandRecord := ⟨10, 10, [("T", [("f1", 1), ("f2", 1)])]⟩

/-- Assignment siting only facility `f1` for the backup-model witness. -/
def ν7 : String → ℚ := fun n => if n = "T$f1" then 1 else 0

/-- Binary store for the LSCP witness: demand `d1` has an empty coverage
map. -/
def s8 : Coverage := ⟨"binary", "coverage", [("T", [("f1", "m")])],
  [("d1", ⟨10, 10, []⟩)], 10⟩

/-- The demand record of `s8`'s demand unit `d1`. -/
def r8 : DemandRecord := ⟨10, 10, []⟩

/-! Per-claim theorems. -/

/-- C1: on a validated two-demand partial store, the `primaryoverall`
constraint for demand `d1` emitted by `create_bclpcc_model` subtracts the
overall variables of BOTH demand units (`Z$d1` and `Z$d2`), because the
source subtracts the whole `overall_vars` dict instead of
`overall_vars[demand_id]`; the claimed per-demand form `primary[d] −
overall[d] ≤ demandWeight[d]` is not what the code emits. -/
theorem bclpcc_primaryoverall_subtracts_all_overalls :
    findConstr (okOrP (create_bclpcc_model s1c nf1 0 "$" false))
        "primaryoveralld1" =
      some ⟨"primaryoveralld1",
        [(1, wVarP "$" "d1"), (-1, zVarP "$" "d1"), (-1, zVarP "$" "d2")],
        .le, 1⟩ := by
  decide

/-- C2: merging two stores that share the facility-type NAME `T` with
different per-type content does not raise `Conflicting facility types`; the
merge succeeds and the second store's definition of `T` silently replaces
the first's (facility `f1` is lost). -/
theorem merge_shared_type_name_overwrites :
    isOkE (merge_coverages [pA2, pB2]) = true ∧
      lookupKey (okOrC (merge_coverages [pA2, pB2])).facilities "T" =
        some [("f2", "m2")] := by
  exact ⟨rfl, by decide⟩

/-- C3: merging two Binary stores where the second marks demand `d1` as
covered (value 1) raises `KeyError "demand"` — the source reads
`coverage["demand"][demand]["coverage"]["demand"]`, a key that does not
exist — instead of overwriting `serviceableDemand` and returning the merged
store. -/
theorem merge_binary_overwrite_keyerror :
    merge_coverages [bA3, bB3] = .error (.keyError "demand") := by
  decide

/-- C4 counterexample: two partial stores meeting every merge precondition
whose merges succeed in both orders, yet the merged `serviceableDemand` of
demand `d1` is 1 one way and 2 the other (it is inherited from whichever
store comes first), so the two merged stores do not have identical
content. -/
theorem merge_not_commutative_serviceable :
    isOkE (merge_coverages [cA4, cB4]) = true ∧
    isOkE (merge_coverages [cB4, cA4]) = true ∧
    (lookupKey (okOrC (merge_coverages [cA4, cB4])).demand "d1").map
        DemandRecord.serviceableDemand = some 1 ∧
    (lookupKey (okOrC (merge_coverages [cB4, cA4])).demand "d1").map
        DemandRecord.serviceableDemand = some 2 := by
  refine ⟨rfl, rfl, by decide, by decide⟩

/-- C5: with delineator `#` the TRAUMAH builder raises `IndexError`
(the pairing loop splits variable keys on the hard-coded `"$"`), while with
delineator `$` it does emit, for the pair (a1, t1), one constraint capping
`z` by the trauma center's siting variable and one capping it by the air
depot's. -/
theorem traumah_split_hardcodes_dollar :
    create_traumah_model t5 1 1 "#" = .error .indexError ∧
    findConstr (okOrP (create_traumah_model t5 1 1 "$"))
        ("GND_" ++ zKey "$" "a1" "t1") =
      some ⟨"GND_" ++ zKey "$" "a1" "t1",
        [(1, zVarT "$" "a1" "t1"), (-1, facVarT "$" "TraumaCenter" "t1")],
        .le, 0⟩ ∧
    findConstr (okOrP (create_traumah_model t5 1 1 "$"))
        ("AIR_" ++ zKey "$" "a1" "t1") =
      some ⟨"AIR_" ++ zKey "$" "a1" "t1",
        [(1, zVarT "$" "a1" "t1"), (-1, facVarT "$" "AirDepot" "a1")],
        .le, 0⟩ := by
  exact ⟨rfl, by decide, by decide⟩

/-- C6 counterexample: updating a two-demand store with a map missing `d2`
fails with `KeyError "d2"`, but the store observable after the failure has
`d1`'s `serviceableDemand` already overwritten (3 became 5), so the failed
call does not leave the store unchanged. -/
theorem update_failure_mutates_store :
    update_serviceable_demand c6 sd6 = .error (.keyError "d2", c6bad) ∧
      c6bad ≠ c6 := by
  exact ⟨by decide, by decide⟩

/-- C10 counterexample: a valid store with no demand units has selected
demand weights summing to zero, yet both threshold builders return a
problem instead of failing with a division-by-zero error (the division sits
inside the per-demand loop, which never runs). -/
theorem threshold_zero_sum_empty_demand_ok :
    sumDemandW false e10b = 0 ∧
    isOkE (create_threshold_model e10b 50 "$" false) = true ∧
    sumDemandW false e10p = 0 ∧
    isOkE (create_cc_threshold_model e10p 50 "$" false) = true := by
  refine ⟨by decide, rfl, by decide, rfl⟩

/-- When some demand id of the walked list is missing from the update map,
the update loop fails, and the record list it leaves behind still has
exactly the original demand ids in the original order. -/
theorem update_sd_go_error (sd : List (String × ℚ)) :
    ∀ (ds : List (String × DemandRecord)) (acc : ℚ),
      (∃ p ∈ ds, lookupKey sd p.1 = none) →
      ∃ k part, update_sd_go ds sd acc = .error (k, part) ∧
        part.map Prod.fst = ds.map Prod.fst := by
  intro ds
  induction ds with
  | nil => intro acc h; simp at h
  | cons hd tl ih =>
    intro acc h
    obtain ⟨k, r⟩ := hd
    cases hk : lookupKey sd k with
    | none =>
      exact ⟨k, (k, r) :: tl, by simp [update_sd_go, hk], rfl⟩
    | some v =>
      have htl : ∃ p ∈ tl, lookupKey sd p.1 = none := by
        obtain ⟨p, hp, hpn⟩ := h
        rcases List.mem_cons.mp hp with hph | hpt
        · subst hph; simp [hk] at hpn
        · exact ⟨p, hpt, hpn⟩
      obtain ⟨k2, part, hgo, hmap⟩ := ih (acc + v) htl
      refine ⟨k2, (k, { r with serviceableDemand := v }) :: part, ?_, ?_⟩
      · simp [update_sd_go, hk, hgo]
      · simpa using hmap

/-- C6 (amended): when the update map misses a demand id of the store,
`update_serviceable_demand` fails with a `KeyError`, and the store
observable after the failure keeps its `totalServiceableDemand`, its
facilities map and its demand-id list (records before the missing id may
already carry overwritten `serviceableDemand` values, as the counterexample
shows, so full unchangedness does not hold). -/
theorem update_sd_missing_key_fails (c : Coverage) (sd : List (String × ℚ))
    (h : ∃ p ∈ c.demand, lookupKey sd p.1 = none) :
    ∃ k c2, update_serviceable_demand c sd = .error (.keyError k, c2) ∧
      c2.totalServiceableDemand = c.totalServiceableDemand ∧
      c2.facilities = c.facilities ∧
      c2.demand.map Prod.fst = c.demand.map Prod.fst := by
  obtain ⟨k, part, hgo, hmap⟩ := update_sd_go_error sd c.demand 0 h
  exact ⟨k, { c with demand := part },
    by simp [update_serviceable_demand, hgo], rfl, rfl, hmap⟩

/-- C6 witness: the amended statement evaluated on the concrete two-demand
store and the update map missing `d2`. -/
theorem update_sd_missing_key_fails_witness :
    ∃ k c2, update_serviceable_demand c6 sd6 = .error (.keyError k, c2) ∧
      c2.totalServiceableDemand = c6.totalServiceableDemand ∧
      c2.facilities = c6.facilities ∧
      c2.demand.map Prod.fst = c6.demand.map Prod.fst :=
  update_sd_missing_key_fails c6 sd6 ⟨("d2", ⟨20, 4, []⟩), by decide, by decide⟩

/-- A successful `mapME` maps every input element to a successful output
element of the result list. -/
theorem mapME_ok_mem {α β : Type} (f : α → Except Err β) :
    ∀ {l : List α} {bs : List β}, mapME f l = .ok bs →
      ∀ a ∈ l, ∃ b ∈ bs, f a = .ok b := by
  intro l
  induction l with
  | nil => intro bs _ a ha; cases ha
  | cons hd tl ih =>
    intro bs h a ha
    cases hf : f hd with
    | error e => simp [mapME, hf] at h
    | ok b =>
      cases hm : mapME f tl with
      | error e => simp [mapME, hf, hm] at h
      | ok bs2 =>
        simp only [mapME, hf, hm] at h
        injection h with h
        subst h
        rcases List.mem_cons.mp ha with hah | hat
        · exact ⟨b, List.mem_cons_self _ _, hah ▸ hf⟩
        · obtain ⟨b2, hb2, hfb⟩ := ih hm a hat
          exact ⟨b2, List.mem_cons_of_mem _ hb2, hfb⟩

/-- Every element of a successful `mapME` result arises from some input
element. -/
theorem mapME_ok_mem_rev {α β : Type} (f : α → Except Err β) :
    ∀ {l : List α} {bs : List β}, mapME f l = .ok bs →
      ∀ b ∈ bs, ∃ a ∈ l, f a = .ok b := by
  intro l
  induction l with
  | nil =>
    intro bs h b hb
    simp only [mapME] at h
    injection h with h
    subst h
    cases hb
  | cons hd tl ih =>
    intro bs h b hb
    cases hf : f hd with
    | error e => simp [mapME, hf] at h
    | ok b2 =>
      cases hm : mapME f tl with
      | error e => simp [mapME, hf, hm] at h
      | ok bs2 =>
        simp only [mapME, hf, hm] at h
        injection h with h
        subst h
        rcases List.mem_cons.mp hb with hbh | hbt
        · exact ⟨hd, List.mem_cons_self _ _, hbh ▸ hf⟩
        · obtain ⟨a, ha, hfa⟩ := ih hm b hbt
          exact ⟨a, List.mem_cons_of_mem _ ha, hfa⟩

/-- A failing `mapME` fails on some input element, with the same error. -/
theorem mapME_error_mem {α β : Type} (f : α → Except Err β) :
    ∀ {l : List α} {e : Err}, mapME f l = .error e →
      ∃ a ∈ l, f a = .error e := by
  intro l
  induction l with
  | nil => intro e h; simp [mapME] at h
  | cons hd tl ih =>
    intro e h
    cases hf : f hd with
    | error e2 =>
      simp only [mapME, hf] at h
      injection h with h
      exact ⟨hd, List.mem_cons_self _ _, h ▸ hf⟩
    | ok b =>
      cases hm : mapME f tl with
      | error e2 =>
        simp only [mapME, hf, hm] at h
        injection h with h
        obtain ⟨a, ha, hfa⟩ := ih (h ▸ hm)
        exact ⟨a, List.mem_cons_of_mem _ ha, hfa⟩
      | ok bs => simp [mapME, hf, hm] at h

/-- `mapME` succeeds when every element succeeds. -/
theorem mapME_ok_of_forall {α β : Type} (f : α → Except Err β) :
    ∀ {l : List α}, (∀ a ∈ l, ∃ b, f a = .ok b) →
      ∃ bs, mapME f l = .ok bs := by
  intro l
  induction l with
  | nil => intro _; exact ⟨[], rfl⟩
  | cons hd tl ih =>
    intro h
    obtain ⟨b, hb⟩ := h hd (List.mem_cons_self _ _)
    obtain ⟨bs, hbs⟩ := ih (fun a ha => h a (List.mem_cons_of_mem _ ha))
    exact ⟨b :: bs, by simp [mapME, hb, hbs]⟩

/-- A failing `facility_vars` subscript always raises a `KeyError`. -/
theorem facLookup_error_keyError (s : Coverage) (ft fid : String) {e : Err}
    (h : facLookup s ft fid = .error e) : ∃ k, e = .keyError k := by
  unfold facLookup at h
  cases hL : lookupKey s.facilities ft with
  | none =>
    simp only [hL] at h
    injection h with h
    exact ⟨ft, h.symm⟩
  | some sub =>
    simp only [hL] at h
    cases hL2 : lookupKey sub fid with
    | none =>
      simp only [hL2] at h
      injection h with h
      exact ⟨fid, h.symm⟩
    | some _ => simp [hL2] at h

/-- The only exceptions the coverage-term walk can raise are the
`KeyError`s of the `facility_vars` subscripts. -/
theorem covTerms_error_keyError (s : Coverage) (t : String)
    (lo up : Option ℚ) (cat : Cat) (w : Bool) :
    ∀ {cov : List (String × List (String × ℚ))} {e : Err},
      covTerms s t lo up cat w cov = .error e → ∃ k, e = .keyError k := by
  intro cov
  induction cov with
  | nil => intro e h; simp [covTerms] at h
  | cons hd tl ih =>
    intro e h
    obtain ⟨ft, sub⟩ := hd
    cases h1 : covTermsOne s t lo up cat w ft sub with
    | error e2 =>
      simp only [covTerms, h1] at h
      injection h with h
      subst h
      obtain ⟨a, _, hfa⟩ := mapME_error_mem _ h1
      revert hfa
      cases hfl : facLookup s ft a.1 with
      | error e3 =>
        intro hfa
        simp only [hfl] at hfa
        injection hfa with hfa
        subst hfa
        exact facLookup_error_keyError s ft a.1 hfl
      | ok _ => intro hfa; simp [hfl] at hfa
    | ok ts =>
      cases h2 : covTerms s t lo up cat w tl with
      | error e2 =>
        simp only [covTerms, h1, h2] at h
        injection h with h
        exact ih (h ▸ h2)
      | ok ts2 => simp [covTerms, h1, h2] at h

/-- A coverage map whose per-type sub-dicts are all empty contributes no
terms (and performs no facility subscript, hence cannot fail). -/
theorem covTerms_empty (s : Coverage) (t : String) (lo up : Option ℚ)
    (cat : Cat) (w : Bool) :
    ∀ {cov : List (String × List (String × ℚ))},
      (∀ q ∈ cov, q.2 = ([] : List (String × ℚ))) →
      covTerms s t lo up cat w cov = .ok [] := by
  intro cov
  induction cov with
  | nil => intro _; rfl
  | cons hd tl ih =>
    intro h
    obtain ⟨ft, sub⟩ := hd
    have hsub : sub = [] := h (ft, sub) (List.mem_cons_self _ _)
    subst hsub
    have htl := ih (fun q hq => h q (List.mem_cons_of_mem _ hq))
    simp [covTerms, covTermsOne, mapME, htl]

/-- In the unweighted (binary) builders every coverage term has
coefficient 1. -/
theorem covTerms_coeff_one (s : Coverage) (t : String) (lo up : Option ℚ)
    (cat : Cat) :
    ∀ {cov : List (String × List (String × ℚ))} {ts : List (ℚ × Var)},
      covTerms s t lo up cat false cov = .ok ts → ∀ q ∈ ts, q.1 = 1 := by
  intro cov
  induction cov with
  | nil => intro ts h q hq; simp only [covTerms] at h; injection h with h; subst h; cases hq
  | cons hd tl ih =>
    intro ts h q hq
    obtain ⟨ft, sub⟩ := hd
    cases h1 : covTermsOne s t lo up cat false ft sub with
    | error e => simp [covTerms, h1] at h
    | ok ts1 =>
      cases h2 : covTerms s t lo up cat false tl with
      | error e => simp [covTerms, h1, h2] at h
      | ok ts2 =>
        simp only [covTerms, h1, h2] at h
        injection h with h
        subst h
        rcases List.mem_append.mp hq with hq1 | hq2
        · obtain ⟨a, _, hfa⟩ := mapME_ok_mem_rev _ h1 q hq1
          revert hfa
          cases hfl : facLookup s ft a.1 with
          | error e => intro hfa; simp [hfl] at hfa
          | ok _ =>
            intro hfa
            simp only [hfl] at hfa
            injection hfa with hfa
            subst hfa
            rfl
        · exact ih h2 q hq2

/-- C8: whenever `create_lscp_model` succeeds on a (necessarily validated
Binary) store, every demand unit whose coverage map is empty (no per-type
entries, or only empty ones) still gets a well-formed coverage row `D{d}`:
its left-hand side is exactly the one placeholder variable
`__dummy{t}{d}` with lower bound 0 and upper bound 0, compared `≥ 1`.  The
row is present in the emitted constraint list, neither omitted nor
malformed. -/
theorem lscp_empty_coverage_dummy_row (s : Coverage) (t : String)
    (p : LpProblem) (hp : create_lscp_model s t = .ok p) (d : String)
    (r : DemandRecord) (hd : (d, r) ∈ s.demand)
    (hempty : ∀ q ∈ r.coverage, q.2 = ([] : List (String × ℚ))) :
    (⟨"D" ++ d, [((1 : ℚ), dummyVar t d)], .ge, 1⟩ : Constr) ∈
      p.constraints := by
  unfold create_lscp_model at hp
  cases hv : validate_coverage s ["coverage"] ["binary"] with
  | error e => simp [hv] at hp
  | ok _ =>
    simp only [hv] at hp
    cases hm : mapME (lscpRow s t) s.demand with
    | error e => simp [hm] at hp
    | ok dCons =>
      simp only [hm] at hp
      injection hp with hp
      subst hp
      obtain ⟨b, hb, hfb⟩ := mapME_ok_mem _ hm (d, r) hd
      have hrow : lscpRow s t (d, r) =
          .ok ⟨"D" ++ d, [((1 : ℚ), dummyVar t d)], .ge, 1⟩ := by
        unfold lscpRow
        simp only [covTerms_empty s t (some 0) (some 1) .integer false hempty]
        simp [List.isEmpty]
      rw [hrow] at hfb
      injection hfb with hfb
      exact hfb ▸ hb

/-- C8 witness: the dummy row produced for the store whose only demand unit
has an empty coverage map. -/
theorem lscp_empty_coverage_dummy_row_witness :
    (⟨"D" ++ "d1", [((1 : ℚ), dummyVar "$" "d1")], .ge, 1⟩ : Constr) ∈
      (okOrP (create_lscp_model s8 "$")).constraints :=
  lscp_empty_coverage_dummy_row s8 "$" (okOrP (create_lscp_model s8 "$"))
    (by decide) "d1" r8 (by decide) (by decide)

/-- Splitting an expression evaluation over list concatenation. -/
theorem evalLhs_append (ν : String → ℚ) (l1 l2 : List (ℚ × Var)) :
    evalLhs ν (l1 ++ l2) = evalLhs ν l1 + evalLhs ν l2 := by
  simp [evalLhs]

/-- A sum of coefficient-1 terms over 0/1-valued variables of which at most
one is 1 is at most 1. -/
theorem sum01_le_one (ν : String → ℚ) :
    ∀ (ts : List (ℚ × Var)), (∀ q ∈ ts, q.1 = 1) →
      (∀ q ∈ ts, ν q.2.name = 0 ∨ ν q.2.name = 1) →
      ts.countP (fun q => ν q.2.name == 1) ≤ 1 →
      evalLhs ν ts ≤ 1 := by
  intro ts
  induction ts with
  | nil => intro _ _ _; simp [evalLhs]
  | cons hd tl ih =>
    intro hc h01 hcnt
    have hhd1 : hd.1 = 1 := hc hd (List.mem_cons_self _ _)
    have hsplit : evalLhs ν (hd :: tl) = hd.1 * ν hd.2.name + evalLhs ν tl := by
      simp [evalLhs]
    rcases h01 hd (List.mem_cons_self _ _) with h0 | h1
    · have hcnt2 : tl.countP (fun q => ν q.2.name == 1) ≤ 1 := by
        refine le_trans ?_ hcnt
        rw [List.countP_cons]
        exact Nat.le_add_right _ _
      have htl := ih (fun q hq => hc q (List.mem_cons_of_mem _ hq))
        (fun q hq => h01 q (List.mem_cons_of_mem _ hq)) hcnt2
      rw [hsplit, h0]
      linarith
    · have hp : (fun q : ℚ × Var => ν q.2.name == 1) hd = true := by
        simp [h1]
      have hcnt2 : tl.countP (fun q => ν q.2.name == 1) = 0 := by
        rw [List.countP_cons] at hcnt
        simp only [h1, beq_self_eq_true, if_pos] at hcnt
        omega
      have htl0 : evalLhs ν tl = 0 := by
        apply List.sum_eq_zero
        intro x hx
        obtain ⟨q, hq, hqx⟩ := List.mem_map.mp hx
        have hq0 : ¬((fun q : ℚ × Var => ν q.2.name == 1) q = true) :=
          List.countP_eq_zero.mp hcnt2 q hq
        simp only [beq_iff_eq] at hq0
        rcases h01 q (List.mem_cons_of_mem _ hq) with hz | ho
        · rw [← hqx, hz, mul_zero]
        · exact absurd ho hq0
      rw [hsplit, h1, htl0, hhd1]
      norm_num

instance (ν : String → ℚ) (c : Constr) : Decidable (satC ν c) := by
  unfold satC
  rcases c with ⟨_, _, cmp, _⟩
  cases cmp <;> exact inferInstance

/-- C7: whenever `create_backup_model` succeeds, every demand unit `d` gets
the constraint `D{d}`: (sum of sited variables over `d`'s covering
facilities) − (backup indicator of `d`) ≥ 1, present in the emitted
problem; and under any assignment satisfying that constraint in which the
covering facilities carry 0/1 sited indicators, at most one of them is
sited, and the backup indicator respects its lower bound 0, the backup
indicator of `d` is forced to 0. -/
theorem backup_linking_forces_zero (s : Coverage)
    (numFac : List (String × ℚ)) (t : String) (u : Bool) (p : LpProblem)
    (hp : create_backup_model s numFac t u = .ok p) (d : String)
    (r : DemandRecord) (hd : (d, r) ∈ s.demand) :
    ∃ ts, covTerms s t (some 0) none .integer false r.coverage = .ok ts ∧
      (⟨"D" ++ d, ts ++ [((-1 : ℚ), uVarB t d)], .ge, 1⟩ : Constr) ∈
        p.constraints ∧
      ∀ ν : String → ℚ,
        satC ν ⟨"D" ++ d, ts ++ [((-1 : ℚ), uVarB t d)], .ge, 1⟩ →
        (∀ q ∈ ts, ν q.2.name = 0 ∨ ν q.2.name = 1) →
        ts.countP (fun q => ν q.2.name == 1) ≤ 1 →
        0 ≤ ν (uVarB t d).name →
        ν (uVarB t d).name = 0 := by
  unfold create_backup_model at hp
  cases hv : validate_coverage s ["coverage"] ["binary"] with
  | error e => simp [hv] at hp
  | ok _ =>
    simp only [hv] at hp
    cases hm : mapME (backupRow s t) s.demand with
    | error e => simp [hm] at hp
    | ok dCons =>
      simp only [hm] at hp
      cases ht : numTotalConstr s t numFac (some 0) none .integer with
      | error e => simp [ht] at hp
      | ok tot =>
        simp only [ht] at hp
        injection hp with hp
        subst hp
        obtain ⟨b, hb, hfb⟩ := mapME_ok_mem _ hm (d, r) hd
        unfold backupRow at hfb
        cases hct : covTerms s t (some 0) none .integer false r.coverage with
        | error e => simp [hct] at hfb
        | ok ts =>
          simp only [hct] at hfb
          injection hfb with hfb
          refine ⟨ts, rfl, ?_, ?_⟩
          · exact List.mem_append_left _ (hfb ▸ hb)
          · intro ν hsat h01 hcnt hge
            have hcoef := covTerms_coeff_one s t (some 0) none .integer hct
            have hle := sum01_le_one ν ts hcoef h01 hcnt
            simp only [satC] at hsat
            rw [evalLhs_append] at hsat
            have hone : evalLhs ν [((-1 : ℚ), uVarB t d)] =
                -(ν (uVarB t d).name) := by
              simp [evalLhs]
            rw [hone] at hsat
            linarith

/-- C7 witness: on the concrete store `s7` the emitted constraint is
`T$f1 + T$f2 - U$d1 ≥ 1`, and under the assignment `ν7` siting only `f1`
the theorem forces the backup indicator of `d1` to 0. -/
theorem backup_linking_forces_zero_witness :
    (⟨"D" ++ "d1",
      [((1 : ℚ), mkFacVar "$" "T" "f1" (some 0) none .integer),
       ((1 : ℚ), mkFacVar "$" "T" "f2" (some 0) none .integer),
       ((-1 : ℚ), uVarB "$" "d1")], .ge, 1⟩ : Constr) ∈
      (okOrP (create_backup_model s7 nf7 "$" false)).constraints ∧
    ν7 (uVarB "$" "d1").name = 0 := by
  obtain ⟨ts, hts, hmem, hsem⟩ :=
    backup_linking_forces_zero s7 nf7 "$" false
      (okOrP (create_backup_model s7 nf7 "$" false)) (by decide) "d1" r7
      (by decide)
  have hts7 : covTerms s7 "$" (some 0) none .integer false r7.coverage =
      .ok [((1 : ℚ), mkFacVar "$" "T" "f1" (some 0) none .integer),
           ((1 : ℚ), mkFacVar "$" "T" "f2" (some 0) none .integer)] := by
    decide
  rw [hts7] at hts
  injection hts with hts
  subst hts
  refine ⟨hmem, hsem ν7 ?_ (by decide) (by decide) (by decide)⟩
  simp [satC, evalLhs, ν7, uVarB, mkFacVar, facVarName]

/-- The threshold-model body can fail only with a `KeyError` (unresolved
facility reference) or a `ZeroDivisionError` (zero total weight), never
with the ψ range `ValueError`. -/
theorem thresholdBody_no_psi_error (s : Coverage) (psi : ℚ) (t : String)
    (u : Bool) : thresholdBody s psi t u ≠ .error (.valueError psiMsg) := by
  intro hcontra
  unfold thresholdBody at hcontra
  cases h1 : mapME (thresholdRow s t) s.demand with
  | error e =>
    simp only [h1] at hcontra
    injection hcontra with hc
    subst hc
    obtain ⟨a, _, ha⟩ := mapME_error_mem _ h1
    unfold thresholdRow at ha
    cases hct : covTerms s t (some 0) (some 1) .integer false a.2.coverage with
    | error e2 =>
      simp only [hct] at ha
      injection ha with ha
      obtain ⟨k, hk⟩ := covTerms_error_keyError s t (some 0) (some 1)
        .integer false hct
      rw [ha] at hk
      cases hk
    | ok ts => simp [hct] at ha
  | ok dCons =>
    simp only [h1] at hcontra
    cases h2 : mapME (thresholdTerm s t u) s.demand with
    | error e =>
      simp only [h2] at hcontra
      injection hcontra with hc
      subst hc
      obtain ⟨a, _, ha⟩ := mapME_error_mem _ h2
      unfold thresholdTerm at ha
      by_cases hz : sumDemandW u s = 0
      · rw [if_pos hz] at ha
        cases ha
      · rw [if_neg hz] at ha
        cases ha
    | ok thrTerms => simp [h2] at hcontra

/-- The complementary-coverage threshold body can likewise never fail with
the ψ range `ValueError`. -/
theorem ccThresholdBody_no_psi_error (s : Coverage) (psi : ℚ) (t : String)
    (u : Bool) : ccThresholdBody s psi t u ≠ .error (.valueError psiMsg) := by
  intro hcontra
  unfold ccThresholdBody at hcontra
  cases h1 : mapME (ccThresholdRows s t u) s.demand with
  | error e =>
    simp only [h1] at hcontra
    injection hcontra with hc
    subst hc
    obtain ⟨a, _, ha⟩ := mapME_error_mem _ h1
    unfold ccThresholdRows at ha
    cases hct : covTerms s t (some 0) (some 1) .integer true a.2.coverage with
    | error e2 =>
      simp only [hct] at ha
      injection ha with ha
      obtain ⟨k, hk⟩ := covTerms_error_keyError s t (some 0) (some 1)
        .integer true hct
      rw [ha] at hk
      cases hk
    | ok ts => simp [hct] at ha
  | ok dConss =>
    simp only [h1] at hcontra
    cases h2 : mapME (ccThresholdTerm s t u) s.demand with
    | error e =>
      simp only [h2] at hcontra
      injection hcontra with hc
      subst hc
      obtain ⟨a, _, ha⟩ := mapME_error_mem _ h2
      unfold ccThresholdTerm at ha
      by_cases hz : sumDemandW u s = 0
      · rw [if_pos hz] at ha
        cases ha
      · rw [if_neg hz] at ha
        cases ha
    | ok thrTerms => simp [h2] at hcontra

/-- C9: on a valid binary store `s1` and a valid partial store `s2`, any ψ
below 0 or above 100 makes `create_threshold_model` and
`create_cc_threshold_model` return the ψ range `ValueError` immediately
(the embedded builders place the check before any variable or constraint
construction, as the source does); and any ψ in [0,100] never produces
that range error, whatever else happens downstream. -/
theorem psi_range_check (s1 s2 : Coverage) (psi : ℚ) (t : String) (u : Bool)
    (h1t : s1.ctype = "binary") (h1m : s1.mode = "coverage")
    (h2t : s2.ctype = "partial") (h2m : s2.mode = "coverage") :
    ((psi < 0 ∨ 100 < psi) →
      create_threshold_model s1 psi t u = .error (.valueError psiMsg) ∧
      create_cc_threshold_model s2 psi t u = .error (.valueError psiMsg)) ∧
    (0 ≤ psi → psi ≤ 100 →
      create_threshold_model s1 psi t u ≠ .error (.valueError psiMsg) ∧
      create_cc_threshold_model s2 psi t u ≠ .error (.valueError psiMsg)) := by
  have hv1 : validate_coverage s1 ["coverage"] ["binary"] = .ok () := by
    unfold validate_coverage
    rw [h1t, h1m]
    simp
  have hv2 : validate_coverage s2 ["coverage"] ["partial"] = .ok () := by
    unfold validate_coverage
    rw [h2t, h2m]
    simp
  constructor
  · intro hout
    have hcond : psi > 100 ∨ psi < 0 := hout.symm
    constructor
    · unfold create_threshold_model
      simp only [hv1]
      rw [if_pos hcond]
    · unfold create_cc_threshold_model
      simp only [hv2]
      rw [if_pos hcond]
  · intro h0 h100
    have hcond : ¬(psi > 100 ∨ psi < 0) := by
      push_neg
      exact ⟨h100, h0⟩
    constructor
    · unfold create_threshold_model
      simp only [hv1]
      rw [if_neg hcond]
      exact thresholdBody_no_psi_error s1 psi t u
    · unfold create_cc_threshold_model
      simp only [hv2]
      rw [if_neg hcond]
      exact ccThresholdBody_no_psi_error s2 psi t u

/-- C9 witness: ψ = 200 on the concrete valid stores produces exactly the
range error in both builders. -/
theorem psi_range_check_witness :
    create_threshold_model e10b 200 "$" false = .error (.valueError psiMsg) ∧
    create_cc_threshold_model e10p 200 "$" false =
      .error (.valueError psiMsg) :=
  (psi_range_check e10b e10p 200 "$" false rfl rfl rfl rfl).1
    (Or.inr (by norm_num))

/-- A resolving facility type contributes its terms without failing. -/
theorem covTermsOne_ok_of_resolves (s : Coverage) (t : String)
    (lo up : Option ℚ) (cat : Cat) (w : Bool) (ft : String)
    (sub : List (String × ℚ)) (hres : covTypeResolvesB s (ft, sub) = true) :
    ∃ ts, covTermsOne s t lo up cat w ft sub = .ok ts := by
  unfold covTypeResolvesB at hres
  unfold covTermsOne
  apply mapME_ok_of_forall
  intro a ha
  cases hL : lookupKey s.facilities ft with
  | none =>
    simp only [hL] at hres
    rw [List.isEmpty_iff] at hres
    subst hres
    cases ha
  | some sub2 =>
    simp only [hL] at hres
    rw [List.all_eq_true] at hres
    have := hres a ha
    cases hL2 : lookupKey sub2 a.1 with
    | none => rw [hL2] at this; cases this
    | some _ =>
      have hfl : facLookup s ft a.1 = .ok () := by
        unfold facLookup
        simp only [hL, hL2]
      exact ⟨((if w then a.2 else 1), mkFacVar t ft a.1 lo up cat),
        by simp [hfl]⟩

/-- A fully resolving coverage map yields its terms without failing. -/
theorem covTerms_ok_of_resolves (s : Coverage) (t : String)
    (lo up : Option ℚ) (cat : Cat) (w : Bool) :
    ∀ (cov : List (String × List (String × ℚ))),
      (∀ q ∈ cov, covTypeResolvesB s q = true) →
      ∃ ts, covTerms s t lo up cat w cov = .ok ts := by
  intro cov
  induction cov with
  | nil => intro _; exact ⟨[], rfl⟩
  | cons hd tl ih =>
    intro h
    obtain ⟨ft, sub⟩ := hd
    obtain ⟨ts1, h1⟩ := covTermsOne_ok_of_resolves s t lo up cat w ft sub
      (h (ft, sub) (List.mem_cons_self _ _))
    obtain ⟨ts2, h2⟩ := ih (fun q hq => h q (List.mem_cons_of_mem _ hq))
    exact ⟨ts1 ++ ts2, by simp [covTerms, h1, h2]⟩

/-- C10 (amended): on valid stores whose every coverage reference resolves,
whose demand map is nonempty, and whose selected demand weights sum to
zero, both threshold builders reach the per-demand division by
`sum_demand` and fail with `ZeroDivisionError` (ψ must be in range, else
the range error preempts).  The counterexample
`threshold_zero_sum_empty_demand_ok` shows the nonemptiness hypothesis is
necessary: with no demand units the division never runs. -/
theorem threshold_zero_sum_divzero (s1 s2 : Coverage) (psi : ℚ) (t : String)
    (u : Bool)
    (h1t : s1.ctype = "binary") (h1m : s1.mode = "coverage")
    (h2t : s2.ctype = "partial") (h2m : s2.mode = "coverage")
    (h0 : 0 ≤ psi) (h100 : psi ≤ 100)
    (hres1 : covResolvesB s1 = true) (hres2 : covResolvesB s2 = true)
    (hne1 : s1.demand ≠ []) (hz1 : sumDemandW u s1 = 0)
    (hne2 : s2.demand ≠ []) (hz2 : sumDemandW u s2 = 0) :
    create_threshold_model s1 psi t u = .error .zeroDivisionError ∧
    create_cc_threshold_model s2 psi t u = .error .zeroDivisionError := by
  have hcond : ¬(psi > 100 ∨ psi < 0) := by
    push_neg
    exact ⟨h100, h0⟩
  unfold covResolvesB at hres1 hres2
  rw [List.all_eq_true] at hres1 hres2
  constructor
  · have hv1 : validate_coverage s1 ["coverage"] ["binary"] = .ok () := by
      unfold validate_coverage
      rw [h1t, h1m]
      simp
    unfold create_threshold_model
    simp only [hv1]
    rw [if_neg hcond]
    unfold thresholdBody
    obtain ⟨dCons, hdc⟩ := mapME_ok_of_forall (thresholdRow s1 t) (by
      intro a ha
      obtain ⟨ts, hts⟩ := covTerms_ok_of_resolves s1 t (some 0) (some 1)
        .integer false a.2.coverage (by
          have := hres1 a ha
          rwa [List.all_eq_true] at this)
      exact ⟨_, by unfold thresholdRow; rw [hts]⟩)
    simp only [hdc]
    obtain ⟨ph, pt, hcons⟩ := List.exists_cons_of_ne_nil hne1
    rw [hcons]
    simp [mapME, thresholdTerm, hz1]
  · have hv2 : validate_coverage s2 ["coverage"] ["partial"] = .ok () := by
      unfold validate_coverage
      rw [h2t, h2m]
      simp
    unfold create_cc_threshold_model
    simp only [hv2]
    rw [if_neg hcond]
    unfold ccThresholdBody
    obtain ⟨dConss, hdc⟩ := mapME_ok_of_forall (ccThresholdRows s2 t u) (by
      intro a ha
      obtain ⟨ts, hts⟩ := covTerms_ok_of_resolves s2 t (some 0) (some 1)
        .integer true a.2.coverage (by
          have := hres2 a ha
          rwa [List.all_eq_true] at this)
      exact ⟨_, by unfold ccThresholdRows; rw [hts]⟩)
    simp only [hdc]
    obtain ⟨ph, pt, hcons⟩ := List.exists_cons_of_ne_nil hne2
    rw [hcons]
    simp [mapME, ccThresholdTerm, hz2]

/-- C10 witness: the amended statement on concrete one-demand stores whose
single demand unit has weight zero. -/
theorem threshold_zero_sum_divzero_witness :
    create_threshold_model z10b 50 "$" false = .error .zeroDivisionError ∧
    create_cc_threshold_model z10p 50 "$" false =
      .error .zeroDivisionError :=
  threshold_zero_sum_divzero z10b z10p 50 "$" false rfl rfl rfl rfl
    (by norm_num) (by norm_num) (by decide) (by decide) (by decide)
    (by norm_num [sumDemandW, z10b, demandW]) (by decide)
    (by norm_num [sumDemandW, z10p, demandW])

/-! Association-list lemmas for the merge-commutativity theorem. -/

theorem lookup_setKey_self {α : Type} (m : List (String × α)) (k : String)
    (v : α) : lookupKey (setKey m k v) k = some v := by
  induction m with
  | nil => simp [setKey, lookupKey]
  | cons p rest ih =>
    by_cases h : p.1 = k
    · simp [setKey, h, lookupKey]
    · simp [setKey, h, lookupKey, ih]

theorem lookup_setKey_ne {α : Type} (m : List (String × α)) (k k2 : String)
    (v : α) (h : k2 ≠ k) :
    lookupKey (setKey m k v) k2 = lookupKey m k2 := by
  have h2 : ¬(k = k2) := fun hc => h hc.symm
  induction m with
  | nil => simp [setKey, lookupKey, h2]
  | cons p rest ih =>
    by_cases hp : p.1 = k
    · subst hp
      simp [setKey, lookupKey, h2]
    · simp [setKey, hp, lookupKey, ih]

theorem lookup_append_some {α : Type} {m1 : List (String × α)}
    (m2 : List (String × α)) {k : String} {v : α}
    (h : lookupKey m1 k = some v) : lookupKey (m1 ++ m2) k = some v := by
  induction m1 with
  | nil => simp [lookupKey] at h
  | cons p rest ih =>
    by_cases hp : p.1 = k
    · simp only [lookupKey, hp, if_pos] at h
      simp [lookupKey, hp, h]
    · simp only [lookupKey, hp, if_neg, if_false] at h
      simp [lookupKey, hp, ih h]

theorem lookup_append_none {α : Type} {m1 : List (String × α)}
    (m2 : List (String × α)) {k : String}
    (h : lookupKey m1 k = none) : lookupKey (m1 ++ m2) k = lookupKey m2 k := by
  induction m1 with
  | nil => simp
  | cons p rest ih =>
    by_cases hp : p.1 = k
    · simp [lookupKey, hp] at h
    · simp only [lookupKey, hp, if_neg, if_false] at h
      simp [lookupKey, hp, ih h]

theorem lookup_some_mem {α : Type} {m : List (String × α)} {k : String}
    {v : α} (h : lookupKey m k = some v) : (k, v) ∈ m := by
  induction m with
  | nil => simp [lookupKey] at h
  | cons p rest ih =>
    by_cases hp : p.1 = k
    · simp only [lookupKey, hp, if_pos] at h
      injection h with h
      subst h
      subst hp
      exact List.mem_cons_self _ _
    · simp only [lookupKey, hp, if_neg, if_false] at h
      exact List.mem_cons_of_mem _ (ih h)

theorem lookup_isSome_of_mem_keys {α : Type} {m : List (String × α)}
    {k : String} (h : k ∈ m.map Prod.fst) : (lookupKey m k).isSome := by
  induction m with
  | nil => simp at h
  | cons p rest ih =>
    by_cases hp : p.1 = k
    · simp [lookupKey, hp]
    · simp only [List.map_cons, List.mem_cons] at h
      rcases h with h | h
      · exact absurd h.symm hp
      · simp [lookupKey, hp, ih h]

theorem lookup_none_of_not_mem_keys {α : Type} {m : List (String × α)}
    {k : String} (h : k ∉ m.map Prod.fst) : lookupKey m k = none := by
  cases hL : lookupKey m k with
  | none => rfl
  | some v =>
    exact absurd (List.mem_map.mpr ⟨(k, v), lookup_some_mem hL, rfl⟩) h

theorem mem_keys_of_lookup_isSome {α : Type} {m : List (String × α)}
    {k : String} (h : (lookupKey m k).isSome) : k ∈ m.map Prod.fst := by
  cases hL : lookupKey m k with
  | none => rw [hL] at h; cases h
  | some v => exact List.mem_map.mpr ⟨(k, v), lookup_some_mem hL, rfl⟩

theorem setKey_of_absent {α : Type} {m : List (String × α)} {k : String}
    (v : α) (h : lookupKey m k = none) : setKey m k v = m ++ [(k, v)] := by
  induction m with
  | nil => simp [setKey]
  | cons p rest ih =>
    by_cases hp : p.1 = k
    · simp [lookupKey, hp] at h
    · simp only [lookupKey, hp, if_neg, if_false] at h
      simp [setKey, hp, ih h]

theorem setKey_keys_of_present {α : Type} {m : List (String × α)}
    {k : String} (v : α) (h : (lookupKey m k).isSome) :
    (setKey m k v).map Prod.fst = m.map Prod.fst := by
  induction m with
  | nil => simp [lookupKey] at h
  | cons p rest ih =>
    by_cases hp : p.1 = k
    · simp [setKey, hp]
    · simp only [lookupKey, hp, if_neg, if_false] at h
      simp [setKey, hp, ih h]

theorem setKey_self_of_lookup {α : Type} {m : List (String × α)}
    {k : String} {v : α} (h : lookupKey m k = some v) : setKey m k v = m := by
  induction m with
  | nil => simp [lookupKey] at h
  | cons p rest ih =>
    by_cases hp : p.1 = k
    · simp only [lookupKey, hp, if_pos] at h
      injection h with h
      subst hp
      simp [setKey, ← h]
    · simp only [lookupKey, hp, if_neg, if_false] at h
      simp [setKey, hp, ih h]

theorem setKey_setKey {α : Type} (m : List (String × α)) (k : String)
    (v w : α) : setKey (setKey m k v) k w = setKey m k w := by
  induction m with
  | nil => simp [setKey]
  | cons p rest ih =>
    by_cases hp : p.1 = k
    · simp [setKey, hp]
    · simp [setKey, hp, ih]

theorem setKey_append_single {α : Type} {m : List (String × α)} {k : String}
    (v w : α) (h : lookupKey m k = none) :
    setKey (m ++ [(k, v)]) k w = m ++ [(k, w)] := by
  induction m with
  | nil => simp [setKey]
  | cons p rest ih =>
    by_cases hp : p.1 = k
    · simp [lookupKey, hp] at h
    · simp only [lookupKey, hp, if_neg, if_false] at h
      simp [setKey, hp, ih h]

theorem setKeyFold_append {α : Type} :
    ∀ {l : List (String × α)} {m : List (String × α)},
      (∀ p ∈ l, lookupKey m p.1 = none) → NodupKeys l →
      setKeyFold m l = m ++ l := by
  intro l
  induction l with
  | nil => intro m _ _; simp [setKeyFold]
  | cons p rest ih =>
    intro m hdisj hnodup
    have hset : setKey m p.1 p.2 = m ++ [p] := by
      rw [setKey_of_absent p.2 (hdisj p (List.mem_cons_self _ _))]
    have hnodup2 : NodupKeys rest := by
      unfold NodupKeys at hnodup ⊢
      simp only [List.map_cons, List.nodup_cons] at hnodup
      exact hnodup.2
    have hhead : p.1 ∉ rest.map Prod.fst := by
      unfold NodupKeys at hnodup
      simp only [List.map_cons, List.nodup_cons] at hnodup
      exact hnodup.1
    have hdisj2 : ∀ q ∈ rest, lookupKey (m ++ [p]) q.1 = none := by
      intro q hq
      rw [lookup_append_none _ (hdisj q (List.mem_cons_of_mem _ hq))]
      have hne : p.1 ≠ q.1 := by
        intro hc
        exact hhead (hc ▸ List.mem_map.mpr ⟨q, hq, rfl⟩)
      simp [lookupKey, hne]
    calc setKeyFold m (p :: rest) = setKeyFold (setKey m p.1 p.2) rest := rfl
      _ = setKeyFold (m ++ [p]) rest := by rw [hset]
      _ = (m ++ [p]) ++ rest := ih hdisj2 hnodup2
      _ = m ++ (p :: rest) := by simp

/-! Structure of a successful merge. -/

/-- A successful inner merge loop rewrites exactly the `ft` entry of the
record's coverage, folding the copied bindings onto the existing
sub-dict. -/
theorem mergeCovFacs_ok (ct : String) (crec : DemandRecord) (ft : String) :
    ∀ (sub : List (String × ℚ)) (acc : DemandRecord)
      (s0 : List (String × ℚ)) (r : DemandRecord),
      lookupKey acc.coverage ft = some s0 →
      mergeCovFacs ct crec acc ft sub = .ok r →
      r = { acc with coverage := setKey acc.coverage ft (setKeyFold s0 sub) } := by
  intro sub
  induction sub with
  | nil =>
    intro acc s0 r hL h
    simp only [mergeCovFacs] at h
    injection h with h
    subst h
    rw [setKeyFold, setKey_self_of_lookup hL]
  | cons q rest ih =>
    intro acc s0 r hL h
    obtain ⟨fac, v⟩ := q
    simp only [mergeCovFacs] at h
    by_cases hbin : ct = "Binary" ∧ v = 1
    · rw [if_pos hbin] at h
      cases hdl : lookupKey crec.coverage "demand" with
      | none => rw [hdl] at h; cases h
      | some _ => rw [hdl] at h; cases h
    · rw [if_neg hbin] at h
      have hgd : (lookupKey acc.coverage ft).getD [] = s0 := by
        rw [hL]
        rfl
      rw [hgd] at h
      have hself : lookupKey
          (setKey acc.coverage ft (setKey s0 fac v)) ft =
          some (setKey s0 fac v) := lookup_setKey_self _ _ _
      have hr := ih
        { acc with coverage := setKey acc.coverage ft (setKey s0 fac v) }
        (setKey s0 fac v) r hself h
      rw [hr]
      simp [setKeyFold, setKey_setKey]

/-- When every facility type of the copied coverage list is fresh for the
master record, a successful outer merge loop appends the copied list to the
master's coverage. -/
theorem mergeCovTypes_ok_append (ct : String) (crec : DemandRecord) :
    ∀ (l : List (String × List (String × ℚ))) (acc r : DemandRecord),
      (∀ p ∈ l, lookupKey acc.coverage p.1 = none) →
      NodupKeys l →
      (∀ p ∈ l, NodupKeys p.2) →
      mergeCovTypes ct crec acc l = .ok r →
      r = { acc with coverage := acc.coverage ++ l } := by
  intro l
  induction l with
  | nil =>
    intro acc r _ _ _ h
    simp only [mergeCovTypes] at h
    injection h with h
    subst h
    simp
  | cons q rest ih =>
    intro acc r hdisj hnodup hsubs h
    obtain ⟨ft, sub⟩ := q
    have hfresh : lookupKey acc.coverage ft = none :=
      hdisj (ft, sub) (List.mem_cons_self _ _)
    simp only [mergeCovTypes, hfresh, Option.isSome_none,
      Bool.false_eq_true, if_false] at h
    have hL1 : lookupKey (acc.coverage ++ [(ft, [])]) ft =
        some ([] : List (String × ℚ)) := by
      rw [lookup_append_none _ hfresh]
      simp [lookupKey]
    cases hcf : mergeCovFacs ct crec
        { acc with coverage := acc.coverage ++ [(ft, [])] } ft sub with
    | error e => rw [hcf] at h; cases h
    | ok acc2 =>
      rw [hcf] at h
      have hacc2 := mergeCovFacs_ok ct crec ft sub
        { acc with coverage := acc.coverage ++ [(ft, [])] } [] acc2 hL1 hcf
      have hfold : setKeyFold ([] : List (String × ℚ)) sub = [] ++ sub :=
        setKeyFold_append (fun p _ => rfl)
          (hsubs (ft, sub) (List.mem_cons_self _ _))
      rw [List.nil_append] at hfold
      have hcov2 : acc2.coverage = acc.coverage ++ [(ft, sub)] := by
        rw [hacc2]
        simp only []
        rw [hfold, setKey_append_single _ _ hfresh]
      have hdisj2 : ∀ p ∈ rest, lookupKey acc2.coverage p.1 = none := by
        intro p hp
        rw [hcov2,
          lookup_append_none _ (hdisj p (List.mem_cons_of_mem _ hp))]
        have hne : ft ≠ p.1 := by
          intro hc
          unfold NodupKeys at hnodup
          simp only [List.map_cons, List.nodup_cons] at hnodup
          exact hnodup.1 (hc ▸ List.mem_map.mpr ⟨p, hp, rfl⟩)
        simp [lookupKey, hne]
      have hnodup2 : NodupKeys rest := by
        unfold NodupKeys at hnodup ⊢
        simp only [List.map_cons, List.nodup_cons] at hnodup
        exact hnodup.2
      have hd2 : acc2.demand = acc.demand := by rw [hacc2]
      have hs2 : acc2.serviceableDemand = acc.serviceableDemand := by
        rw [hacc2]
      have hr := ih acc2 r hdisj2 hnodup2
        (fun p hp => hsubs p (List.mem_cons_of_mem _ hp)) h
      rw [hr, hd2, hs2, hcov2]
      simp

/-- When the copied record's coverage types are all fresh for the master's
record, a successful `mergeDemandRecord` appends the copied coverage. -/
theorem mergeDemandRecord_ok (ct : String) (mrec crec r : DemandRecord)
    (hdisj : ∀ p ∈ crec.coverage, lookupKey mrec.coverage p.1 = none)
    (hnodup : NodupKeys crec.coverage)
    (hsubs : ∀ p ∈ crec.coverage, NodupKeys p.2)
    (h : mergeDemandRecord ct mrec crec = .ok r) :
    r = { mrec with coverage := mrec.coverage ++ crec.coverage } :=
  mergeCovTypes_ok_append ct crec crec.coverage mrec r hdisj hnodup hsubs h

/-- A successful demand merge keeps exactly the master's demand ids, in
order. -/
theorem mergeDemands_keys (ct : String) :
    ∀ (l master out : List (String × DemandRecord)),
      mergeDemands ct master l = .ok out →
      out.map Prod.fst = master.map Prod.fst := by
  intro l
  induction l with
  | nil =>
    intro master out h
    simp only [mergeDemands] at h
    injection h with h
    subst h
    rfl
  | cons q rest ih =>
    intro master out h
    obtain ⟨d, crec⟩ := q
    simp only [mergeDemands] at h
    cases hL : lookupKey master d with
    | none => simp only [hL] at h; cases h
    | some mrec =>
      simp only [hL] at h
      cases hmr : mergeDemandRecord ct mrec crec with
      | error e => simp only [hmr] at h; cases h
      | ok mrec2 =>
        simp only [hmr] at h
        rw [ih _ _ h]
        exact setKey_keys_of_present mrec2 (by simp [hL])

/-- A successful demand merge leaves ids outside the copied list
untouched. -/
theorem mergeDemands_lookup_not_mem (ct : String) :
    ∀ (l master out : List (String × DemandRecord)) (k : String),
      k ∉ l.map Prod.fst →
      mergeDemands ct master l = .ok out →
      lookupKey out k = lookupKey master k := by
  intro l
  induction l with
  | nil =>
    intro master out k _ h
    simp only [mergeDemands] at h
    injection h with h
    subst h
    rfl
  | cons q rest ih =>
    intro master out k hk h
    obtain ⟨d, crec⟩ := q
    simp only [mergeDemands] at h
    cases hL : lookupKey master d with
    | none => simp only [hL] at h; cases h
    | some mrec =>
      simp only [hL] at h
      cases hmr : mergeDemandRecord ct mrec crec with
      | error e => simp only [hmr] at h; cases h
      | ok mrec2 =>
        simp only [hmr] at h
        have hkd : k ≠ d := by
          intro hc
          exact hk (by simp [hc])
        have hkrest : k ∉ rest.map Prod.fst := by
          intro hc
          exact hk (by simp [hc])
        rw [ih _ _ k hkrest h, lookup_setKey_ne _ _ _ _ hkd]

/-- A successful demand merge maps each copied id `k` to the merge of the
master's record with the copied record. -/
theorem mergeDemands_lookup_mem (ct : String) :
    ∀ (l master out : List (String × DemandRecord)) (k : String)
      (crec : DemandRecord),
      NodupKeys l →
      lookupKey l k = some crec →
      mergeDemands ct master l = .ok out →
      ∃ mrec r, lookupKey master k = some mrec ∧
        mergeDemandRecord ct mrec crec = .ok r ∧
        lookupKey out k = some r := by
  intro l
  induction l with
  | nil =>
    intro master out k crec _ hk _
    simp [lookupKey] at hk
  | cons q rest ih =>
    intro master out k crec hnodup hk h
    obtain ⟨d, c0⟩ := q
    simp only [mergeDemands] at h
    cases hL : lookupKey master d with
    | none => simp only [hL] at h; cases h
    | some mrec0 =>
      simp only [hL] at h
      cases hmr : mergeDemandRecord ct mrec0 c0 with
      | error e => simp only [hmr] at h; cases h
      | ok r0 =>
        simp only [hmr] at h
        by_cases hkd : d = k
        · subst hkd
          have hc0 : crec = c0 := by
            simp [lookupKey] at hk
            exact hk.symm
          subst hc0
          have hdrest : d ∉ rest.map Prod.fst := by
            unfold NodupKeys at hnodup
            simp only [List.map_cons, List.nodup_cons] at hnodup
            exact hnodup.1
          have hout := mergeDemands_lookup_not_mem ct rest _ out d hdrest h
          rw [lookup_setKey_self] at hout
          exact ⟨mrec0, r0, hL, hmr, hout⟩
        · have hkrest : lookupKey rest k = some crec := by
            simp only [lookupKey, hkd, if_neg, if_false] at hk
            exact hk
          have hnodup2 : NodupKeys rest := by
            unfold NodupKeys at hnodup ⊢
            simp only [List.map_cons, List.nodup_cons] at hnodup
            exact hnodup.2
          obtain ⟨mrec, r, hml, hmm, hmo⟩ :=
            ih _ out k crec hnodup2 hkrest h
          rw [lookup_setKey_ne _ _ _ _ (fun hc => hkd hc.symm)] at hml
          exact ⟨mrec, r, hml, hmm, hmo⟩

/-- Unfolding a successful `mergeStep`: the facility maps are folded and
the demand merge succeeded. -/
theorem mergeStep_inv (ct : String) (ma c m : Coverage)
    (h : mergeStep ct ma c = .ok m) :
    ∃ dems, mergeDemands ct ma.demand c.demand = .ok dems ∧
      m = { ma with facilities := setKeyFold ma.facilities c.facilities, demand := dems } := by
  unfold mergeStep at h
  cases hd : mergeDemands ct ma.demand c.demand with
  | error e => simp only [hd] at h; cases h
  | ok dems =>
    simp only [hd] at h
    injection h with h
    exact ⟨dems, rfl, h.symm⟩

/-- Inverting a successful two-store merge: the demand-key sets compared
equal and the single `mergeStep` from the first store onto the second
succeeded. -/
theorem merge_two_inv (a b m : Coverage)
    (h : merge_coverages [a, b] = .ok m) :
    keySetEqB (a.demand.map Prod.fst) (b.demand.map Prod.fst) = true ∧
      mergeStep a.ctype a b = .ok m := by
  unfold merge_coverages at h
  cases hp1 : mergePhase1 a.ctype [] [] [a, b] with
  | error e => simp only [hp1] at h; cases h
  | ok dkeys =>
    simp only [hp1] at h
    have hdk : dkeys = [a.demand.map Prod.fst, b.demand.map Prod.fst] := by
      unfold mergePhase1 at hp1
      cases hva : validate_coverage a ["coverage"] [a.ctype] with
      | error e => simp only [hva] at hp1; cases hp1
      | ok _ =>
        simp only [hva] at hp1
        cases hca : checkFacItems [] a.facilities with
        | error e => simp only [hca] at hp1; cases hp1
        | ok acc2 =>
          simp only [hca] at hp1
          unfold mergePhase1 at hp1
          cases hvb : validate_coverage b ["coverage"] [a.ctype] with
          | error e => simp only [hvb] at hp1; cases hp1
          | ok _ =>
            simp only [hvb] at hp1
            cases hcb : checkFacItems acc2 b.facilities with
            | error e => simp only [hcb] at hp1; cases hp1
            | ok acc3 =>
              simp only [hcb] at hp1
              unfold mergePhase1 at hp1
              injection hp1 with hp1
              rw [← hp1]
              simp
    subst hdk
    by_cases hall : ([a.demand.map Prod.fst, b.demand.map Prod.fst]).all
        (fun x => ([a.demand.map Prod.fst, b.demand.map Prod.fst]).all
          (fun y => keySetEqB x y)) = true
    · rw [if_pos hall] at h
      have hks : keySetEqB (a.demand.map Prod.fst)
          (b.demand.map Prod.fst) = true := by
        simp only [List.all_cons, List.all_nil, Bool.and_true,
          Bool.and_eq_true] at hall
        exact hall.1.2
      refine ⟨hks, ?_⟩
      simp only [List.tail_cons] at h
      cases hst : mergeStep a.ctype a b with
      | error e => simp only [mergeRest, hst] at h; cases h
      | ok m2 =>
        simp only [mergeRest, hst] at h
        injection h with h
        rw [h]
    · rw [if_neg hall] at h
      cases h

/-- Lookup in the concatenation of two key-disjoint association lists does
not depend on the concatenation order. -/
theorem lookup_append_comm {α : Type} (m1 m2 : List (String × α))
    (hdisj : ∀ k, lookupKey m1 k = none ∨ lookupKey m2 k = none)
    (k : String) :
    lookupKey (m1 ++ m2) k = lookupKey (m2 ++ m1) k := by
  cases h1 : lookupKey m1 k with
  | some v =>
    rw [lookup_append_some _ h1]
    rcases hdisj k with h | h
    · rw [h1] at h
      cases h
    · rw [lookup_append_none _ h, h1]
  | none =>
    rw [lookup_append_none _ h1]
    cases h2 : lookupKey m2 k with
    | some w => rw [lookup_append_some _ h2]
    | none => rw [lookup_append_none _ h2, h1]

/-- Python set equality of key lists gives pointwise membership
equivalence. -/
theorem keySetEqB_mem {ks1 ks2 : List String}
    (h : keySetEqB ks1 ks2 = true) (k : String) : k ∈ ks1 ↔ k ∈ ks2 := by
  unfold keySetEqB at h
  rw [Bool.and_eq_true, List.all_eq_true, List.all_eq_true] at h
  constructor
  · intro hk
    simpa using h.1 k hk
  · intro hk
    simpa using h.2 k hk

/-- C4 (amended): for two well-formed stores with disjoint facility-type
names whose merges succeed in both orders, the two merged stores have the
same facility-map content and, per demand unit, the same coverage-map
content (identical lookups at every key, each demand id present in one iff
present in the other).  The `serviceableDemand` equality of the original
claim is false — the counterexample `merge_not_commutative_serviceable`
shows it is inherited from whichever store comes first. -/
theorem merge_two_content_commutes (a b m1 m2 : Coverage)
    (h1 : merge_coverages [a, b] = .ok m1)
    (h2 : merge_coverages [b, a] = .ok m2)
    (hwa : WFStore a) (hwb : WFStore b)
    (hdisj : ∀ p ∈ a.facilities, lookupKey b.facilities p.1 = none) :
    (∀ ft, lookupKey m1.facilities ft = lookupKey m2.facilities ft) ∧
    (∀ d, (lookupKey m1.demand d).isSome = (lookupKey m2.demand d).isSome) ∧
    (∀ d r1 r2, lookupKey m1.demand d = some r1 →
      lookupKey m2.demand d = some r2 →
      ∀ ft, lookupKey r1.coverage ft = lookupKey r2.coverage ft) := by
  obtain ⟨hks1, hstep1⟩ := merge_two_inv a b m1 h1
  obtain ⟨hks2, hstep2⟩ := merge_two_inv b a m2 h2
  obtain ⟨dems1, hdm1, hm1⟩ := mergeStep_inv a.ctype a b m1 hstep1
  obtain ⟨dems2, hdm2, hm2⟩ := mergeStep_inv b.ctype b a m2 hstep2
  have hd1 : m1.demand = dems1 := by rw [hm1]
  have hd2 : m2.demand = dems2 := by rw [hm2]
  have hdisjK : ∀ k, lookupKey a.facilities k = none ∨
      lookupKey b.facilities k = none := by
    intro k
    cases hL : lookupKey a.facilities k with
    | none => exact Or.inl rfl
    | some v => exact Or.inr (hdisj (k, v) (lookup_some_mem hL))
  have hbfresh : ∀ p ∈ b.facilities, lookupKey a.facilities p.1 = none := by
    intro p hp
    rcases hdisjK p.1 with h | h
    · exact h
    · exfalso
      have hs : (lookupKey b.facilities p.1).isSome =
          true := lookup_isSome_of_mem_keys (List.mem_map.mpr ⟨p, hp, rfl⟩)
      rw [h] at hs
      cases hs
  have hfac1 : m1.facilities = a.facilities ++ b.facilities := by
    rw [hm1]
    exact setKeyFold_append hbfresh hwb.1
  have hfac2 : m2.facilities = b.facilities ++ a.facilities := by
    rw [hm2]
    exact setKeyFold_append hdisj hwa.1
  have hk1 : m1.demand.map Prod.fst = a.demand.map Prod.fst := by
    rw [hd1]
    exact mergeDemands_keys a.ctype b.demand a.demand dems1 hdm1
  have hk2 : m2.demand.map Prod.fst = b.demand.map Prod.fst := by
    rw [hd2]
    exact mergeDemands_keys b.ctype a.demand b.demand dems2 hdm2
  refine ⟨?_, ?_, ?_⟩
  · intro ft
    rw [hfac1, hfac2]
    exact lookup_append_comm a.facilities b.facilities hdisjK ft
  · intro d
    by_cases hmem : d ∈ a.demand.map Prod.fst
    · have e1 : (lookupKey m1.demand d).isSome = true :=
        lookup_isSome_of_mem_keys (by rw [hk1]; exact hmem)
      have e2 : (lookupKey m2.demand d).isSome = true :=
        lookup_isSome_of_mem_keys
          (by rw [hk2]; exact (keySetEqB_mem hks1 d).mp hmem)
      rw [e1, e2]
    · have e1 : lookupKey m1.demand d = none :=
        lookup_none_of_not_mem_keys (by rw [hk1]; exact hmem)
      have e2 : lookupKey m2.demand d = none :=
        lookup_none_of_not_mem_keys (by
          rw [hk2]
          intro hc
          exact hmem ((keySetEqB_mem hks1 d).mpr hc))
      rw [e1, e2]
  · intro d r1 r2 hr1 hr2 ft
    have hdm : d ∈ a.demand.map Prod.fst := by
      rw [← hk1]
      exact mem_keys_of_lookup_isSome (by rw [hr1]; rfl)
    have hdb : d ∈ b.demand.map Prod.fst := (keySetEqB_mem hks1 d).mp hdm
    have hbs : (lookupKey b.demand d).isSome = true :=
      lookup_isSome_of_mem_keys hdb
    cases hbrec : lookupKey b.demand d with
    | none => rw [hbrec] at hbs; cases hbs
    | some brec =>
      obtain ⟨arec, rr1, hla, hmr1, hlo1⟩ :=
        mergeDemands_lookup_mem a.ctype b.demand a.demand dems1 d brec
          hwb.2.1 hbrec hdm1
      obtain ⟨brec2, rr2, hlb2, hmr2, hlo2⟩ :=
        mergeDemands_lookup_mem b.ctype a.demand b.demand dems2 d arec
          hwa.2.1 hla hdm2
      have hbb : brec2 = brec := by
        rw [hbrec] at hlb2
        injection hlb2 with hlb2
        exact hlb2.symm
      rw [hbb] at hmr2
      have hrr1 : rr1 = r1 := by
        rw [hd1] at hr1
        rw [hlo1] at hr1
        injection hr1 with hr1
      have hrr2 : rr2 = r2 := by
        rw [hd2] at hr2
        rw [hlo2] at hr2
        injection hr2 with hr2
      rw [hrr1] at hmr1
      rw [hrr2] at hmr2
      have hamem : (d, arec) ∈ a.demand := lookup_some_mem hla
      have hbmem : (d, brec) ∈ b.demand := lookup_some_mem hbrec
      obtain ⟨hanc, hans, hares⟩ := hwa.2.2 (d, arec) hamem
      obtain ⟨hbnc, hbns, hbres⟩ := hwb.2.2 (d, brec) hbmem
      have hcdisjAB : ∀ p ∈ brec.coverage,
          lookupKey arec.coverage p.1 = none := by
        intro p hp
        cases hax : lookupKey arec.coverage p.1 with
        | none => rfl
        | some x =>
          exfalso
          have haf := hares (p.1, x) (lookup_some_mem hax)
          have hbf := hbres p hp
          rcases hdisjK p.1 with h | h
          · rw [h] at haf
            cases haf
          · rw [h] at hbf
            cases hbf
      have hcdisjBA : ∀ p ∈ arec.coverage,
          lookupKey brec.coverage p.1 = none := by
        intro p hp
        cases hbx : lookupKey brec.coverage p.1 with
        | none => rfl
        | some x =>
          exfalso
          have haf := hares p hp
          have hbf := hbres (p.1, x) (lookup_some_mem hbx)
          rcases hdisjK p.1 with h | h
          · rw [h] at haf
            cases haf
          · rw [h] at hbf
            cases hbf
      have hr1eq := mergeDemandRecord_ok a.ctype arec brec r1
        hcdisjAB hbnc hbns hmr1
      have hr2eq := mergeDemandRecord_ok b.ctype brec arec r2
        hcdisjBA hanc hans hmr2
      rw [hr1eq, hr2eq]
      have hcd : ∀ k, lookupKey arec.coverage k = none ∨
          lookupKey brec.coverage k = none := by
        intro k
        cases hax : lookupKey arec.coverage k with
        | none => exact Or.inl rfl
        | some x => exact Or.inr (hcdisjBA (k, x) (lookup_some_mem hax))
      exact lookup_append_comm arec.coverage brec.coverage hcd ft

/-- C4 witness: the amended statement instantiated on the concrete
counterexample stores, whose merges succeed in both orders: the merged
facility maps agree at the facility type `T2` contributed by the second
store, and the demand unit `d1` is present in both merged stores. -/
theorem merge_two_content_commutes_witness :
    lookupKey (okOrC (merge_coverages [cA4, cB4])).facilities "T2" =
      lookupKey (okOrC (merge_coverages [cB4, cA4])).facilities "T2" ∧
    (lookupKey (okOrC (merge_coverages [cA4, cB4])).demand "d1").isSome =
      (lookupKey (okOrC (merge_coverages [cB4, cA4])).demand "d1").isSome := by
  obtain ⟨hf, hd, _⟩ := merge_two_content_commutes cA4 cB4
    (okOrC (merge_coverages [cA4, cB4])) (okOrC (merge_coverages [cB4, cA4]))
    (by decide) (by decide) (by decide) (by decide) (by decide)
  exact ⟨hf "T2", hd "d1"⟩

end PySpatialOpt
